import Mathlib

/-!
# Thermostat controller (`gpiointerrupt.c`): shallow embedding and verified claims

The C program is a single translation unit: a polling loop in `mainThread`
driven by a timer flag, two button interrupt handlers that adjust `setPoint`,
a sensor decoder `readTemp` and a status formatter `sendDataToServer`.

Modelling conventions.

* `int` variables (`setPoint`, `seconds`, `temperature`, `heat`) are
  mathematical integers.  Signed overflow is undefined behaviour in C, so the
  program has a meaning only while these stay inside the 32-bit range; the
  formatting results that depend on the range state it as a hypothesis.
* `int16_t` results are integers reduced into `[-32768, 32767]` by `wrap16`
  (the conversion gcc performs, modulo `2^16`).
* `uint8_t` buffer cells are `Fin 256`.
* The product with the `double` constant `0.0078125 = 2^-7` is exact in binary
  floating point for every 16-bit operand, so it is computed over `ℚ`; the
  conversion back to `int16_t` discards the fractional part.
* Driver calls (`I2C_transfer`, `GPIO_write`, `UART2_write`) are recorded in
  an output trace; what the bus transfer delivers is an input of the loop
  iteration that issues it.
* Runs are sequences of serialized events: handler executions and loop
  iterations.  Inside an iteration the one window where an interrupt is not
  equivalent to a handler run before or after it lies between the two reads
  of `setPoint` (lines 107 and 115); `mainThreadCycle` takes the interrupts of
  that window as an input, and `mainThreadLoop` is the iteration with none.
* The results of `UART2_open`, `I2C_open`, `Timer_open` and `Timer_start` are
  inputs; an initialisation that spins in `while (1);` never returns, which
  is the result `none`.
-/

namespace Thermostat

/-! ## Machine arithmetic -/

/-- Contents of one `uint8_t` cell. -/
abbrev Byte := Fin 256

/-- Conversion of an integer value to `int16_t`: reduction modulo `2^16`
into the range `[-32768, 32767]`. -/
def wrap16 (v : Int) : Int := (v + 32768) % 65536 - 32768

/-- Conversion of a `double` holding the exact value `q` to an integer type:
the fractional part is discarded (truncation toward zero). -/
def truncToInt (q : ℚ) : Int := if 0 ≤ q then ⌊q⌋ else ⌈q⌉

/-- Bitwise OR of a (promoted, 32-bit two's complement) `int` with a
non-negative constant; the result is the unsigned 32-bit pattern. -/
def orInt32 (v : Int) (mask : Nat) : Int :=
  Int.ofNat ((v % 4294967296).toNat ||| mask)

/-! ## Sensor reader -/

/-- What one `I2C_transfer` call does: its boolean result and the two cells
of `rxBuffer` afterwards. -/
structure I2CResult where
  ok : Bool
  rx0 : Byte
  rx1 : Byte
deriving DecidableEq, Repr

/-- `readTemp`: decode the two received bytes, or return the initial `0` when
the transfer fails. -/
def readTemp (bus : I2CResult) : Int :=
  let temperature : Int := 0
  if bus.ok then
    let temperature := wrap16 (Int.ofNat ((bus.rx0.val <<< 8) ||| bus.rx1.val))
    let temperature := wrap16 (truncToInt ((temperature : ℚ) * 0.0078125))
    if bus.rx0.val &&& 0x80 ≠ 0 then
      wrap16 (orInt32 temperature 0xF000)
    else
      temperature
  else
    temperature

/-! ## Status reporter -/

/-- The `printf` conversion `%0<width>d` (`%d` for width `0`) of an `int`:
optional minus sign, then the decimal digits left-padded with zeros up to the
field width. -/
def printf_d (width : Nat) (v : Int) : List Char :=
  let digits := Nat.toDigits 10 v.natAbs
  if v < 0 then
    '-' :: (List.replicate (width - 1 - digits.length) '0' ++ digits)
  else
    List.replicate (width - digits.length) '0' ++ digits

/-- The text the format string `"<%02d,%02d,%d,%04d>"` produces. -/
def formatFrame (temperature setPoint heat seconds : Int) : List Char :=
  '<' :: (printf_d 2 temperature ++ ',' :: (printf_d 2 setPoint ++
    ',' :: (printf_d 0 heat ++ ',' :: (printf_d 4 seconds ++ ['>']))))

/-- `snprintf(buf, size, ...)`: the buffer holds at most `size - 1` characters
of the text followed by a terminating NUL. -/
def snprintf (size : Nat) (text : List Char) : List Char :=
  text.take (size - 1) ++ [Char.ofNat 0]

/-- `strlen`: number of characters before the first NUL. -/
def strlen (buf : List Char) : Nat :=
  (buf.takeWhile (fun c => c ≠ Char.ofNat 0)).length

/-- `sendDataToServer`: the bytes handed to `UART2_write`, namely the first
`strlen(output)` cells of the 64-byte buffer filled by `snprintf`. -/
def sendDataToServer (temperature setPoint heat seconds : Int) : List Char :=
  let output := snprintf 64 (formatFrame temperature setPoint heat seconds)
  output.take (strlen output)

/-! ## Shared state, handlers and the control loop -/

/-- The two levels written to `CONFIG_GPIO_LED_0`. -/
inductive LedLevel where
  | CONFIG_GPIO_LED_ON
  | CONFIG_GPIO_LED_OFF
deriving DecidableEq, Repr

/-- Driver calls visible from outside, in program order. -/
inductive Action where
  | I2C_transfer
  | GPIO_write (level : LedLevel)
  | UART2_write (bytes : List Char)
deriving DecidableEq, Repr

/-- The globals `TimerFlag`, `setPoint` and the locals of `mainThread`. -/
structure State where
  TimerFlag : Nat
  setPoint : Int
  seconds : Int
  temperature : Int
  heat : Int
deriving DecidableEq, Repr

/-- State at the first loop iteration: initialisers of the globals and of the
locals of `mainThread`. -/
def initState : State :=
  { TimerFlag := 0, setPoint := 25, seconds := 0, temperature := 0, heat := 0 }

/-- `timerCallback`. -/
def timerCallback (s : State) : State := { s with TimerFlag := 1 }

/-- `gpioButtonFxn0`. -/
def gpioButtonFxn0 (s : State) : State := { s with setPoint := s.setPoint + 1 }

/-- `gpioButtonFxn1`. -/
def gpioButtonFxn1 (s : State) : State := { s with setPoint := s.setPoint - 1 }

/-- Interrupts whose handlers can run while the loop body executes. -/
inductive Interrupt where
  | timer
  | button0
  | button1
deriving DecidableEq, Repr

/-- The handler run for an interrupt. -/
def Interrupt.handle : Interrupt → State → State
  | Interrupt.timer, s => timerCallback s
  | Interrupt.button0, s => gpioButtonFxn0 s
  | Interrupt.button1, s => gpioButtonFxn1 s

/-- The handlers of a sequence of interrupts, run in order. -/
def handleAll (irqs : List Interrupt) (s : State) : State :=
  irqs.foldl (fun st i => i.handle st) s

/-- One iteration of the `while (1)` body of `mainThread`.  `bus` is what the
transfer delivers if this iteration calls `readTemp`.  The global `setPoint`
is read twice, in the comparison (line 107) and again for the argument of
`sendDataToServer` (line 115), with `GPIO_write` in between; `irqs` are the
interrupts taken between these two reads.  Interrupts taken anywhere else in
the body have the effect of handlers run before or after the iteration. -/
def mainThreadCycle (bus : I2CResult) (irqs : List Interrupt) (s : State) :
    State × List Action :=
  if s.TimerFlag ≠ 0 then
    let seconds := s.seconds + 1
    let sample : Int × List Action :=
      if Int.tmod seconds 2 = 0 then (readTemp bus, [Action.I2C_transfer])
      else (s.temperature, [])
    let temperature := sample.1
    let led : Int × List Action :=
      if temperature < s.setPoint then (1, [Action.GPIO_write LedLevel.CONFIG_GPIO_LED_ON])
      else (0, [Action.GPIO_write LedLevel.CONFIG_GPIO_LED_OFF])
    let heat := led.1
    let atCall : State := handleAll irqs
      { TimerFlag := 0, setPoint := s.setPoint, seconds := seconds,
        temperature := temperature, heat := heat }
    (atCall,
     sample.2 ++ led.2 ++
       [Action.UART2_write (sendDataToServer temperature atCall.setPoint heat seconds)])
  else
    (s, [])

/-- One iteration of the loop body during which no interrupt is taken between
the two reads of `setPoint`: the iteration as one serialized event. -/
def mainThreadLoop (bus : I2CResult) (s : State) : State × List Action :=
  mainThreadCycle bus [] s

/-- Serialized events: a timer interrupt, one loop iteration, a press of
either button. -/
inductive Event where
  | timerFire
  | loop (bus : I2CResult)
  | increasePress
  | decreasePress
deriving DecidableEq, Repr

/-- Effect of one event. -/
def step (e : Event) (s : State) : State × List Action :=
  match e with
  | Event.timerFire => (timerCallback s, [])
  | Event.loop bus => mainThreadLoop bus s
  | Event.increasePress => (gpioButtonFxn0 s, [])
  | Event.decreasePress => (gpioButtonFxn1 s, [])

/-- Run a sequence of events, collecting the driver calls. -/
def run (s : State) : List Event → State × List Action
  | [] => (s, [])
  | e :: es =>
    let r1 := step e s
    let r2 := run r1.1 es
    (r2.1, r1.2 ++ r2.2)

/-! ## Specification-side notions

These follow the wording of the specification and are compared with the
definitions above. -/

/-- The sign-extended 16-bit value of a word: words with bit 15 set denote
negative numbers. -/
def signExtend16 (w : Nat) : Int :=
  if w % 65536 < 32768 then Int.ofNat (w % 65536) else Int.ofNat (w % 65536) - 65536

/-- The decoded temperature the specification asks for: the sign-extended
big-endian word times `1/128`, converted to the integer return type. -/
def specDecode (hi lo : Byte) : Int :=
  truncToInt ((signExtend16 ((hi.val <<< 8) ||| lo.val) : ℚ) * (1 / 128))

/-- Two-digit zero-padded decimal of a value in `0..99`. -/
def twoDigits (v : Int) : List Char :=
  [Nat.digitChar (v.toNat / 10), Nat.digitChar (v.toNat % 10)]

/-- Four-digit zero-padded decimal of a value in `0..9999`. -/
def fourDigits (v : Int) : List Char :=
  [Nat.digitChar (v.toNat / 1000), Nat.digitChar (v.toNat / 100 % 10),
   Nat.digitChar (v.toNat / 10 % 10), Nat.digitChar (v.toNat % 10)]

/-- Number of loop iterations of an event sequence that find `TimerFlag` set,
given whether the flag is set at the start. -/
def observedTicks (flag : Bool) : List Event → Nat
  | [] => 0
  | Event.timerFire :: es => observedTicks true es
  | Event.loop _ :: es => (if flag then 1 else 0) + observedTicks false es
  | Event.increasePress :: es => observedTicks flag es
  | Event.decreasePress :: es => observedTicks flag es

/-- Kind of a driver call, forgetting its payload. -/
inductive ActionKind where
  | transfer
  | led
  | frame
deriving DecidableEq, Repr

/-- Kind of a driver call. -/
def Action.kind : Action → ActionKind
  | Action.I2C_transfer => ActionKind.transfer
  | Action.GPIO_write _ => ActionKind.led
  | Action.UART2_write _ => ActionKind.frame

/-- Number of bus transfers in a trace. -/
def countTransfers (out : List Action) : Nat :=
  (out.filter (fun a => decide (a = Action.I2C_transfer))).length

/-- `n` control cycles with no button activity: timer fire, then a loop
iteration, for each bus input in turn. -/
def cycles : List I2CResult → List Event
  | [] => []
  | b :: bs => Event.timerFire :: Event.loop b :: cycles bs

/-- Frames handed to `UART2_write`, in order. -/
def frames : List Action → List (List Char)
  | [] => []
  | Action.UART2_write bytes :: rest => bytes :: frames rest
  | Action.I2C_transfer :: rest => frames rest
  | Action.GPIO_write _ :: rest => frames rest

/-- Levels written to the LED, in order. -/
def ledWrites : List Action → List LedLevel
  | [] => []
  | Action.GPIO_write level :: rest => level :: ledWrites rest
  | Action.I2C_transfer :: rest => ledWrites rest
  | Action.UART2_write _ :: rest => ledWrites rest

/-- The frames of a list carry consecutive elapsed counts `n+1, n+2, ...`:
each is what `sendDataToServer` writes for some temperature, setPoint and
heat and that count. -/
def framesFrom (n : Int) : List (List Char) → Prop
  | [] => True
  | f :: fs => (∃ t sp h : Int, f = sendDataToServer t sp h (n + 1)) ∧ framesFrom (n + 1) fs

/-- Value of a string of decimal digits, most significant first. -/
def decVal (l : List Char) : Nat :=
  l.foldl (fun acc c => 10 * acc + (c.toNat - 48)) 0

/-- Value of an optionally signed string of decimal digits. -/
def decInt : List Char → Int
  | [] => 0
  | c :: rest => if c = '-' then -(decVal rest : Int) else (decVal (c :: rest) : Int)

/-! ## Initialisation -/

/-- Results of the driver calls made during initialisation: whether each
`*_open` call returned a non-NULL handle and whether `Timer_start` returned
something other than `Timer_STATUS_ERROR`. -/
structure DriverResults where
  UART2_open : Bool
  I2C_open : Bool
  Timer_open : Bool
  Timer_start : Bool
deriving DecidableEq, Repr

/-- `initUART2`: returns when the handle is non-NULL; otherwise it spins in
`while (1);` and never returns (`none`). -/
def initUART2 (d : DriverResults) : Option Unit :=
  if d.UART2_open then some () else none

/-- `initI2C`: returns when the handle is non-NULL; otherwise it never
returns (`none`). -/
def initI2C (d : DriverResults) : Option Unit :=
  if d.I2C_open then some () else none

/-- `initGPIO`: always returns; its visible driver call is the write that
turns the LED off. -/
def initGPIO : List Action :=
  [Action.GPIO_write LedLevel.CONFIG_GPIO_LED_OFF]

/-- `initTimer`: never returns (`none`) when `Timer_open` gives NULL or
`Timer_start` gives `Timer_STATUS_ERROR`. -/
def initTimer (d : DriverResults) : Option Unit :=
  if d.Timer_open = false ∨ d.Timer_start = false then none else some ()

/-- `mainThread`: the four initialisations in program order, then the loop
processing the events.  The first component is `none` when an initialisation
never returns, so that the loop is not reached; the second is the trace of
driver calls made. -/
def mainThread (d : DriverResults) (evs : List Event) : Option State × List Action :=
  match initUART2 d with
  | none => (none, [])
  | some _ =>
    match initI2C d with
    | none => (none, [])
    | some _ =>
      match initTimer d with
      | none => (none, initGPIO)
      | some _ =>
        let r := run initState evs
        (some r.1, initGPIO ++ r.2)

/-- Values of the C type `int` (32 bits). -/
def isInt32 (v : Int) : Prop := -2147483648 ≤ v ∧ v ≤ 2147483647

instance (v : Int) : Decidable (isInt32 v) := by
  unfold isInt32
  exact inferInstance

/-! ## Auxiliary lemmas -/

/-- The iteration without interrupts, written out. -/
theorem mainThreadLoop_eq (bus : I2CResult) (s : State) :
    mainThreadLoop bus s =
      if s.TimerFlag ≠ 0 then
        let seconds := s.seconds + 1
        let sample : Int × List Action :=
          if Int.tmod seconds 2 = 0 then (readTemp bus, [Action.I2C_transfer])
          else (s.temperature, [])
        let temperature := sample.1
        let led : Int × List Action :=
          if temperature < s.setPoint then
            (1, [Action.GPIO_write LedLevel.CONFIG_GPIO_LED_ON])
          else (0, [Action.GPIO_write LedLevel.CONFIG_GPIO_LED_OFF])
        let heat := led.1
        ({ TimerFlag := 0, setPoint := s.setPoint, seconds := seconds,
           temperature := temperature, heat := heat },
         sample.2 ++ led.2 ++
           [Action.UART2_write (sendDataToServer temperature s.setPoint heat seconds)])
      else
        (s, []) := rfl

theorem truncToInt_div128 (t : Int) :
    truncToInt ((t : ℚ) / ((128 : ℕ) : ℚ)) = Int.tdiv t 128 := by
  unfold truncToInt
  by_cases ht : 0 ≤ t
  · have hq : (0 : ℚ) ≤ (t : ℚ) / ((128 : ℕ) : ℚ) := by
      have : (0 : ℚ) ≤ (t : ℚ) := by exact_mod_cast ht
      positivity
    rw [if_pos hq, Rat.floor_intCast_div_natCast, Int.tdiv_eq_ediv ht (by norm_num)]
    norm_num
  · have ht' : t < 0 := not_le.mp ht
    have hq : ¬ (0 : ℚ) ≤ (t : ℚ) / ((128 : ℕ) : ℚ) := by
      have : (t : ℚ) < 0 := by exact_mod_cast ht'
      have h2 : (t : ℚ) / ((128 : ℕ) : ℚ) < 0 := by
        apply div_neg_of_neg_of_pos this
        norm_num
      exact not_le.mpr h2
    rw [if_neg hq]
    have e1 : (t : ℚ) / ((128 : ℕ) : ℚ) = -((((-t : Int)) : ℚ) / ((128 : ℕ) : ℚ)) := by
      push_cast
      ring
    rw [e1, Int.ceil_neg, Rat.floor_intCast_div_natCast]
    have e2 : Int.tdiv t 128 = -(Int.tdiv (-t) 128) := by
      rw [Int.neg_tdiv, neg_neg]
    rw [e2, Int.tdiv_eq_ediv (by omega) (by norm_num)]
    norm_num

theorem truncToInt_scale (t : Int) :
    truncToInt ((t : ℚ) * 0.0078125) = Int.tdiv t 128 := by
  have h : ((t : ℚ) * 0.0078125) = (t : ℚ) / ((128 : ℕ) : ℚ) := by
    norm_num
    ring
  rw [h, truncToInt_div128]

theorem truncToInt_scale_frac (t : Int) :
    truncToInt ((t : ℚ) * (1 / 128)) = Int.tdiv t 128 := by
  have h : ((t : ℚ) * (1 / 128)) = (t : ℚ) / ((128 : ℕ) : ℚ) := by
    norm_num
    ring
  rw [h, truncToInt_div128]

theorem tdiv_neg_128 (r : Int) (h : r ≤ 0) : Int.tdiv r 128 = -((-r) / 128) := by
  have e2 : Int.tdiv r 128 = -(Int.tdiv (-r) 128) := by
    rw [Int.neg_tdiv, neg_neg]
  rw [e2, Int.tdiv_eq_ediv (by omega) (by norm_num)]

theorem tmod_two_eq_zero_iff (x : Int) : Int.tmod x 2 = 0 ↔ x % 2 = 0 := by
  constructor
  · intro h
    have := Int.dvd_of_tmod_eq_zero h
    omega
  · intro h
    apply Int.tmod_eq_zero_of_dvd
    omega

theorem raw_word (hi lo : Byte) : (hi.val <<< 8) ||| lo.val = 256 * hi.val + lo.val := by
  have h := Nat.mul_add_lt_is_or (i := 8) (b := lo.val) (by simp) hi.val
  rw [Nat.shiftLeft_eq, Nat.mul_comm]
  simpa using h.symm

set_option maxRecDepth 100000 in
theorem top_bit_test : ∀ hi : Byte, (hi.val &&& 0x80 ≠ 0) = (128 ≤ hi.val) := by
  decide

set_option maxRecDepth 100000 in
theorem top_bit_iff : ∀ hi : Byte, hi.val.testBit 7 = true ↔ 128 ≤ hi.val := by
  decide

set_option maxRecDepth 100000 in
theorem or_mask_neg : ∀ k : Byte,
    wrap16 (orInt32 (-(k.val : Int) - 1) 0xF000) = -(k.val : Int) - 1 := by
  decide

/-- Integer form of `readTemp`: the scaling step is a truncating division. -/
theorem readTemp_int (bus : I2CResult) :
    readTemp bus =
      if bus.ok then
        if 128 ≤ bus.rx0.val then
          wrap16 (orInt32 (wrap16 (Int.tdiv
            (wrap16 (256 * (bus.rx0.val : Int) + (bus.rx1.val : Int))) 128)) 0xF000)
        else
          wrap16 (Int.tdiv (wrap16 (256 * (bus.rx0.val : Int) + (bus.rx1.val : Int))) 128)
      else 0 := by
  unfold readTemp
  simp only [truncToInt_scale, raw_word, top_bit_test]
  simp

/-- Top bit clear: the result is the quotient of the word by 128. -/
theorem readTemp_clear (hi lo : Byte) (h : hi.val < 128) :
    readTemp ⟨true, hi, lo⟩ = (256 * (hi.val : Int) + (lo.val : Int)) / 128 := by
  have hlo := lo.isLt
  rw [readTemp_int]
  simp only [if_true, if_neg (not_le.mpr h)]
  have e1 : wrap16 (256 * (hi.val : Int) + (lo.val : Int))
      = 256 * (hi.val : Int) + (lo.val : Int) := by
    unfold wrap16
    omega
  rw [e1, Int.tdiv_eq_ediv (by omega) (by norm_num)]
  unfold wrap16
  omega

/-- Top bit set: the word denotes `r = 256*hi + lo - 65536 < 0`; the result is
the truncated quotient when `r ≤ -128`, and `-4096` when `-128 < r`. -/
theorem readTemp_set (hi lo : Byte) (h : 128 ≤ hi.val) :
    readTemp ⟨true, hi, lo⟩ =
      if 256 * (hi.val : Int) + (lo.val : Int) - 65536 ≤ -128 then
        -((65536 - (256 * (hi.val : Int) + (lo.val : Int))) / 128)
      else -4096 := by
  have hlo := lo.isLt
  have hhi := hi.isLt
  rw [readTemp_int]
  simp only [if_true, if_pos h]
  have e1 : wrap16 (256 * (hi.val : Int) + (lo.val : Int))
      = 256 * (hi.val : Int) + (lo.val : Int) - 65536 := by
    unfold wrap16
    omega
  rw [e1, tdiv_neg_128 _ (by omega)]
  have e3 : -(256 * (hi.val : Int) + (lo.val : Int) - 65536)
      = 65536 - (256 * (hi.val : Int) + (lo.val : Int)) := by ring
  rw [e3]
  generalize hm : (65536 - (256 * (hi.val : Int) + (lo.val : Int))) / 128 = m
  have hm0 : 0 ≤ m := by omega
  have hm1 : m ≤ 256 := by omega
  have e2 : wrap16 (-m) = -m := by
    unfold wrap16
    omega
  rw [e2]
  by_cases hz : m = 0
  · have hc : ¬ (256 * (hi.val : Int) + (lo.val : Int) - 65536 ≤ -128) := by omega
    rw [if_neg hc, hz]
    decide
  · have hc : 256 * (hi.val : Int) + (lo.val : Int) - 65536 ≤ -128 := by omega
    rw [if_pos hc]
    have hk : (m - 1).toNat < 256 := by omega
    have := or_mask_neg ⟨(m - 1).toNat, hk⟩
    have e4 : -(((⟨(m - 1).toNat, hk⟩ : Byte).val : Int)) - 1 = -m := by
      simp only []
      omega
    rw [e4] at this
    exact this

theorem signExtend16_word (hi lo : Byte) :
    signExtend16 ((hi.val <<< 8) ||| lo.val) =
      if hi.val < 128 then 256 * (hi.val : Int) + (lo.val : Int)
      else 256 * (hi.val : Int) + (lo.val : Int) - 65536 := by
  have hlo := lo.isLt
  have hhi := hi.isLt
  rw [raw_word]
  unfold signExtend16
  split_ifs <;> simp only [Int.ofNat_eq_coe] <;> omega

theorem specDecode_int (hi lo : Byte) :
    specDecode hi lo =
      if hi.val < 128 then (256 * (hi.val : Int) + (lo.val : Int)) / 128
      else -((65536 - (256 * (hi.val : Int) + (lo.val : Int))) / 128) := by
  have hlo := lo.isLt
  have hhi := hi.isLt
  unfold specDecode
  rw [truncToInt_scale_frac, signExtend16_word]
  split_ifs with h
  · rw [Int.tdiv_eq_ediv (by omega) (by norm_num)]
  · rw [tdiv_neg_128 _ (by omega)]
    congr 2
    ring

/-! ## Sensor decoding -/

/-- Range of the defect behind C3: for `hi = 0xFF` and every `lo` in
`0x81..0xFF` (raw values `-127..-1`) the decoder returns `-4096` where the
specified value is `0`. -/
theorem decode_minus4096_range (lo : Byte) (hlo : 0x81 ≤ lo.val) :
    readTemp ⟨true, 0xFF, lo⟩ = -4096 ∧ specDecode 0xFF lo = 0 := by
  have hlt := lo.isLt
  have hv : ((0xFF : Byte).val : Int) = 255 := by decide
  constructor
  · rw [readTemp_set _ _ (by decide), hv, if_neg (by omega)]
  · have hn : ¬ ((0xFF : Byte).val < 128) := by decide
    rw [specDecode_int, if_neg hn, hv]
    omega

/-- Where the decoder is right for negative words: with the top bit set and a
raw value of at most `-128`, `readTemp` returns the specified value. -/
theorem decode_negative_agrees (hi lo : Byte) (h : 128 ≤ hi.val)
    (hr : 256 * (hi.val : Int) + (lo.val : Int) - 65536 ≤ -128) :
    readTemp ⟨true, hi, lo⟩ = specDecode hi lo := by
  rw [readTemp_set hi lo h, if_pos hr, specDecode_int, if_neg (by omega)]

/-- C3 (evidence of the defect): for the received pair `0xFF, 0xFF` (raw
value `-1`) the specification asks for `-1/128` converted to the return type,
which is `0`, and `readTemp` returns `-4096`.  The other example of the claim,
`0xFF, 0x80`, does give `-1`. -/
theorem readTemp_small_negative :
    readTemp ⟨true, 0xFF, 0xFF⟩ = -4096 ∧ specDecode 0xFF 0xFF = 0 ∧
    readTemp ⟨true, 0xFF, 0xFF⟩ ≠ specDecode 0xFF 0xFF ∧
    readTemp ⟨true, 0xFF, 0x80⟩ = -1 ∧ specDecode 0xFF 0x80 = -1 := by
  have h1 : readTemp ⟨true, 0xFF, 0xFF⟩ = -4096 := by
    rw [readTemp_set _ _ (by decide)]
    decide
  have h2 : specDecode 0xFF 0xFF = 0 := by
    rw [specDecode_int]
    decide
  refine ⟨h1, h2, ?_, ?_, ?_⟩
  · rw [h1, h2]
    decide
  · rw [readTemp_set _ _ (by decide)]
    decide
  · rw [specDecode_int]
    decide

/-- C4 (counterexample): for the pair `0x0C, 0x81`, top bit clear, the word
is `3201` and the product with `1/128` is `3201/128`, while `readTemp`
returns `25`: the result is not the product. -/
theorem readTemp_drops_fraction :
    (0x0C : Byte).val.testBit 7 = false ∧
    readTemp ⟨true, 0x0C, 0x81⟩ = 25 ∧
    (((((0x0C : Byte).val <<< 8) ||| (0x81 : Byte).val) : Nat) : ℚ) * (1 / 128) = 3201 / 128 ∧
    (readTemp ⟨true, 0x0C, 0x81⟩ : ℚ)
      ≠ (((((0x0C : Byte).val <<< 8) ||| (0x81 : Byte).val) : Nat) : ℚ) * (1 / 128) := by
  have hr : readTemp ⟨true, 0x0C, 0x81⟩ = 25 := by
    rw [readTemp_clear _ _ (by decide)]
    decide
  have hw : (((0x0C : Byte).val <<< 8) ||| (0x81 : Byte).val) = 3201 := by decide
  refine ⟨by decide, hr, ?_, ?_⟩
  · rw [hw]
    norm_num
  · rw [hw, hr]
    norm_num

/-- C4 (amended): with the top bit of `hi` clear and a successful transfer,
`readTemp` returns the word `(hi<<8)|lo` times `1/128` converted to the
integer return type, that is the product with its fraction
`(word mod 128)/128` discarded, a non-negative integer. -/
theorem readTemp_nonneg_value (hi lo : Byte) (h : hi.val.testBit 7 = false) :
    readTemp ⟨true, hi, lo⟩ =
        truncToInt ((((hi.val <<< 8) ||| lo.val : Nat) : ℚ) * (1 / 128)) ∧
    (readTemp ⟨true, hi, lo⟩ : ℚ) =
        (((hi.val <<< 8) ||| lo.val : Nat) : ℚ) * (1 / 128)
          - ((((hi.val <<< 8) ||| lo.val) % 128 : Nat) : ℚ) * (1 / 128) ∧
    0 ≤ readTemp ⟨true, hi, lo⟩ := by
  have hlt : hi.val < 128 := by
    by_contra hc
    have := (top_bit_iff hi).mpr (not_lt.mp hc)
    rw [this] at h
    exact Bool.noConfusion h
  have hlo := lo.isLt
  have hr := readTemp_clear hi lo hlt
  have hw : (((hi.val <<< 8) ||| lo.val : Nat) : Int) = 256 * (hi.val : Int) + (lo.val : Int) := by
    rw [raw_word]
    push_cast
    ring
  have hcast : (((hi.val <<< 8) ||| lo.val : Nat) : ℚ)
      = ((((hi.val <<< 8) ||| lo.val : Nat) : Int) : ℚ) := by
    push_cast
    rfl
  refine ⟨?_, ?_, ?_⟩
  · rw [hcast, truncToInt_scale_frac, Int.tdiv_eq_ediv (by omega) (by norm_num), hr, hw]
  · have hdm := Nat.div_add_mod ((hi.val <<< 8) ||| lo.val) 128
    have hq : readTemp ⟨true, hi, lo⟩ = ((((hi.val <<< 8) ||| lo.val) / 128 : Nat) : Int) := by
      rw [hr, ← hw]
      push_cast
      rfl
    rw [hq]
    have hdm' : ((((hi.val <<< 8) ||| lo.val : Nat)) : ℚ)
        = 128 * ((((hi.val <<< 8) ||| lo.val) / 128 : Nat) : ℚ)
          + ((((hi.val <<< 8) ||| lo.val) % 128 : Nat) : ℚ) := by
      exact_mod_cast hdm.symm
    rw [show (((((hi.val <<< 8) ||| lo.val) / 128 : Nat) : Int) : ℚ)
          = ((((hi.val <<< 8) ||| lo.val) / 128 : Nat) : ℚ) from by push_cast; rfl]
    linarith
  · rw [hr]
    omega

theorem readTemp_nonneg_value_witness :
    readTemp ⟨true, 0x0C, 0x81⟩ =
        truncToInt ((((((0x0C : Byte).val <<< 8) ||| (0x81 : Byte).val) : Nat) : ℚ) * (1 / 128)) ∧
    (readTemp ⟨true, 0x0C, 0x81⟩ : ℚ) =
        ((((((0x0C : Byte).val <<< 8) ||| (0x81 : Byte).val)) : Nat) : ℚ) * (1 / 128)
          - ((((((0x0C : Byte).val <<< 8) ||| (0x81 : Byte).val)) % 128 : Nat) : ℚ) * (1 / 128) ∧
    0 ≤ readTemp ⟨true, 0x0C, 0x81⟩ :=
  readTemp_nonneg_value 0x0C 0x81 (by decide)

/-- C5: after a successful transfer the result of `readTemp` is non-negative
when the top bit of `hi` is clear and strictly negative when it is set. -/
theorem readTemp_sign (hi lo : Byte) :
    (hi.val.testBit 7 = false → 0 ≤ readTemp ⟨true, hi, lo⟩) ∧
    (hi.val.testBit 7 = true → readTemp ⟨true, hi, lo⟩ < 0) := by
  have hlo := lo.isLt
  have hhi := hi.isLt
  constructor
  · intro h
    have hlt : hi.val < 128 := by
      by_contra hc
      have := (top_bit_iff hi).mpr (not_lt.mp hc)
      rw [this] at h
      exact Bool.noConfusion h
    rw [readTemp_clear hi lo hlt]
    omega
  · intro h
    have hge := (top_bit_iff hi).mp h
    rw [readTemp_set hi lo hge]
    split_ifs <;> omega

theorem readTemp_sign_witness :
    0 ≤ readTemp ⟨true, 0x0C, 0x80⟩ ∧ readTemp ⟨true, 0xFF, 0xFF⟩ < 0 :=
  ⟨(readTemp_sign 0x0C 0x80).1 (by decide), (readTemp_sign 0xFF 0xFF).2 (by decide)⟩

/-- C9: whatever the receive buffer holds, a failed transfer makes `readTemp`
return `0`; the result is an ordinary value, so the calling loop iteration
behaves exactly as after a successful read of the bytes `0, 0`. -/
theorem readTemp_failure_default (rx0 rx1 : Byte) (s : State) :
    readTemp ⟨false, rx0, rx1⟩ = 0 ∧
    mainThreadLoop ⟨false, rx0, rx1⟩ s = mainThreadLoop ⟨true, 0, 0⟩ s := by
  have h0 : readTemp ⟨false, rx0, rx1⟩ = 0 := by
    simp [readTemp]
  have h1 : readTemp ⟨true, 0, 0⟩ = 0 := by
    rw [readTemp_clear _ _ (by decide)]
    decide
  refine ⟨h0, ?_⟩
  rw [mainThreadLoop_eq, mainThreadLoop_eq, h0, h1]

/-! ## The control cycle -/

/-- C1: in a loop iteration that observes `TimerFlag` set, with `T` the
temperature held after the optional sample (the decoded reading when the new
count is even, the previous value otherwise) and `S` the setPoint, the heat
value becomes `1` exactly when `T < S` and `0` otherwise, that is exactly when
`S ≤ T`, which includes `T = S`. -/
theorem heat_threshold (bus : I2CResult) (s : State) (h : s.TimerFlag ≠ 0) :
    (mainThreadLoop bus s).1.temperature
        = (if (s.seconds + 1) % 2 = 0 then readTemp bus else s.temperature) ∧
    (mainThreadLoop bus s).1.setPoint = s.setPoint ∧
    ((mainThreadLoop bus s).1.heat = 1 ↔
        (mainThreadLoop bus s).1.temperature < (mainThreadLoop bus s).1.setPoint) ∧
    ((mainThreadLoop bus s).1.heat = 0 ↔
        (mainThreadLoop bus s).1.setPoint ≤ (mainThreadLoop bus s).1.temperature) ∧
    ((mainThreadLoop bus s).1.heat = 1 ∨ (mainThreadLoop bus s).1.heat = 0) := by
  rw [mainThreadLoop_eq]
  simp only [if_pos h, tmod_two_eq_zero_iff]
  by_cases hp : (s.seconds + 1) % 2 = 0
  · simp only [if_pos hp]
    by_cases hc : readTemp bus < s.setPoint
    · simp only [if_pos hc]
      simp [hc]
    · simp only [if_neg hc]
      simp [hc]
      omega
  · simp only [if_neg hp]
    by_cases hc : s.temperature < s.setPoint
    · simp only [if_pos hc]
      simp [hc]
    · simp only [if_neg hc]
      simp [hc]
      omega

theorem heat_threshold_witness :
    (⟨1, 25, 1, 0, 1⟩ : State).TimerFlag ≠ 0 ∧
    (mainThreadLoop ⟨true, 0x0C, 0x80⟩ ⟨1, 25, 1, 0, 1⟩).1.temperature
        = (if ((1 : Int) + 1) % 2 = 0 then readTemp ⟨true, 0x0C, 0x80⟩ else 0) ∧
    (mainThreadLoop ⟨true, 0x0C, 0x80⟩ ⟨1, 25, 1, 0, 1⟩).1.setPoint = 25 ∧
    ((mainThreadLoop ⟨true, 0x0C, 0x80⟩ ⟨1, 25, 1, 0, 1⟩).1.heat = 1 ↔
        (mainThreadLoop ⟨true, 0x0C, 0x80⟩ ⟨1, 25, 1, 0, 1⟩).1.temperature
          < (mainThreadLoop ⟨true, 0x0C, 0x80⟩ ⟨1, 25, 1, 0, 1⟩).1.setPoint) ∧
    ((mainThreadLoop ⟨true, 0x0C, 0x80⟩ ⟨1, 25, 1, 0, 1⟩).1.heat = 0 ↔
        (mainThreadLoop ⟨true, 0x0C, 0x80⟩ ⟨1, 25, 1, 0, 1⟩).1.setPoint
          ≤ (mainThreadLoop ⟨true, 0x0C, 0x80⟩ ⟨1, 25, 1, 0, 1⟩).1.temperature) ∧
    ((mainThreadLoop ⟨true, 0x0C, 0x80⟩ ⟨1, 25, 1, 0, 1⟩).1.heat = 1 ∨
      (mainThreadLoop ⟨true, 0x0C, 0x80⟩ ⟨1, 25, 1, 0, 1⟩).1.heat = 0) :=
  ⟨by decide, heat_threshold ⟨true, 0x0C, 0x80⟩ ⟨1, 25, 1, 0, 1⟩ (by decide)⟩

/-- C2 (counterexample): three cycles with successful reads of `0x0B, 0x00`
and a fourth timer fire lead from the initial state to elapsed count `3`
holding the sample `22`.  A failing transfer in the next cycle (count `4`)
replaces the sample by `0`, and the frame reports `00`, not the previous
`22`. -/
theorem failed_read_loses_sample :
    (run initState
      [Event.timerFire, Event.loop ⟨true, 0x0B, 0x00⟩,
       Event.timerFire, Event.loop ⟨true, 0x0B, 0x00⟩,
       Event.timerFire, Event.loop ⟨true, 0x0B, 0x00⟩,
       Event.timerFire]).1 = ⟨1, 25, 3, 22, 1⟩ ∧
    (⟨1, 25, 3, 22, 1⟩ : State).TimerFlag ≠ 0 ∧
    ((⟨1, 25, 3, 22, 1⟩ : State).seconds + 1) % 2 = 0 ∧
    (⟨false, 0x0B, 0x00⟩ : I2CResult).ok = false ∧
    (mainThreadLoop ⟨false, 0x0B, 0x00⟩ ⟨1, 25, 3, 22, 1⟩).1.temperature = 0 ∧
    (mainThreadLoop ⟨false, 0x0B, 0x00⟩ ⟨1, 25, 3, 22, 1⟩).1.temperature
      ≠ (⟨1, 25, 3, 22, 1⟩ : State).temperature ∧
    (mainThreadLoop ⟨false, 0x0B, 0x00⟩ ⟨1, 25, 3, 22, 1⟩).2
      = [Action.I2C_transfer, Action.GPIO_write LedLevel.CONFIG_GPIO_LED_ON,
         Action.UART2_write "<00,25,1,0004>".toList] := by
  have h0 : readTemp ⟨false, 0x0B, 0x00⟩ = 0 := by simp [readTemp]
  have h22 : readTemp ⟨true, 0x0B, 0x00⟩ = 22 := by
    rw [readTemp_clear _ _ (by decide)]
    decide
  refine ⟨?_, by decide, by decide, rfl, ?_, ?_, ?_⟩
  · simp [run, step, timerCallback, initState, mainThreadLoop_eq, tmod_two_eq_zero_iff, h22]
  · simp [mainThreadLoop_eq, tmod_two_eq_zero_iff, h0]
  · simp [mainThreadLoop_eq, tmod_two_eq_zero_iff, h0]
  · simp [mainThreadLoop_eq, tmod_two_eq_zero_iff, h0]
    decide

/-- C2 (amended): in a cycle whose new elapsed count is even and whose
transfer fails, the temperature sample becomes `0`, the default returned by
`readTemp`, whatever it was before; heat and the frame of that cycle are
computed from `0`. -/
theorem failed_read_resets_sample (bus : I2CResult) (s : State)
    (h : s.TimerFlag ≠ 0) (heven : (s.seconds + 1) % 2 = 0) (hfail : bus.ok = false) :
    (mainThreadLoop bus s).1.temperature = 0 ∧
    (mainThreadLoop bus s).2
      = [Action.I2C_transfer,
         Action.GPIO_write (if 0 < s.setPoint then LedLevel.CONFIG_GPIO_LED_ON
                            else LedLevel.CONFIG_GPIO_LED_OFF),
         Action.UART2_write (sendDataToServer 0 s.setPoint
           (if 0 < s.setPoint then 1 else 0) (s.seconds + 1))] := by
  have h0 : readTemp bus = 0 := by simp [readTemp, hfail]
  rw [mainThreadLoop_eq]
  simp only [if_pos h, (tmod_two_eq_zero_iff _).mpr heven, if_true, h0]
  by_cases hc : (0 : Int) < s.setPoint
  · simp [hc]
  · simp [hc]

theorem failed_read_resets_sample_witness :
    (⟨1, 25, 3, 22, 1⟩ : State).TimerFlag ≠ 0 ∧
    ((⟨1, 25, 3, 22, 1⟩ : State).seconds + 1) % 2 = 0 ∧
    (⟨false, 0x0B, 0x00⟩ : I2CResult).ok = false ∧
    (mainThreadLoop ⟨false, 0x0B, 0x00⟩ ⟨1, 25, 3, 22, 1⟩).1.temperature = 0 ∧
    (mainThreadLoop ⟨false, 0x0B, 0x00⟩ ⟨1, 25, 3, 22, 1⟩).2
      = [Action.I2C_transfer,
         Action.GPIO_write (if (0 : Int) < 25 then LedLevel.CONFIG_GPIO_LED_ON
                            else LedLevel.CONFIG_GPIO_LED_OFF),
         Action.UART2_write (sendDataToServer 0 25
           (if (0 : Int) < 25 then 1 else 0) ((3 : Int) + 1))] :=
  ⟨by decide, by decide, rfl,
    failed_read_resets_sample ⟨false, 0x0B, 0x00⟩ ⟨1, 25, 3, 22, 1⟩ (by decide) (by decide) rfl⟩

/-! ## Decimal conversion and the status frame -/

theorem toDigitsCore_succ (f n : Nat) (acc : List Char) :
    Nat.toDigitsCore 10 (f + 1) n acc =
      if n / 10 = 0 then Nat.digitChar (n % 10) :: acc
      else Nat.toDigitsCore 10 f (n / 10) (Nat.digitChar (n % 10) :: acc) := by
  simp [Nat.toDigitsCore]

/-- The accumulator of `Nat.toDigitsCore` is only appended to. -/
theorem toDigitsCore_acc (f : Nat) : ∀ (n : Nat) (acc : List Char),
    Nat.toDigitsCore 10 f n acc = Nat.toDigitsCore 10 f n [] ++ acc := by
  induction f with
  | zero => intro n acc; simp [Nat.toDigitsCore]
  | succ f ih =>
    intro n acc
    rw [toDigitsCore_succ, toDigitsCore_succ]
    by_cases h : n / 10 = 0
    · simp [h]
    · rw [if_neg h, if_neg h, ih (n / 10) (Nat.digitChar (n % 10) :: acc),
        ih (n / 10) [Nat.digitChar (n % 10)]]
      simp

/-- Any fuel above the number gives the same digits. -/
theorem toDigitsCore_fuel (f : Nat) : ∀ (g n : Nat) (acc : List Char), n < f → n < g →
    Nat.toDigitsCore 10 f n acc = Nat.toDigitsCore 10 g n acc := by
  induction f with
  | zero => intro g n acc h; omega
  | succ f ih =>
    intro g n acc hf hg
    cases g with
    | zero => omega
    | succ g =>
      rw [toDigitsCore_succ, toDigitsCore_succ]
      by_cases h : n / 10 = 0
      · simp [h]
      · rw [if_neg h, if_neg h]
        apply ih <;> omega

theorem toDigits_lt10 (n : Nat) (h : n < 10) : Nat.toDigits 10 n = [Nat.digitChar n] := by
  unfold Nat.toDigits
  rw [toDigitsCore_succ, if_pos (by omega), Nat.mod_eq_of_lt h]

theorem toDigits_step (n : Nat) (h : 10 ≤ n) :
    Nat.toDigits 10 n = Nat.toDigits 10 (n / 10) ++ [Nat.digitChar (n % 10)] := by
  unfold Nat.toDigits
  rw [toDigitsCore_succ, if_neg (by omega), toDigitsCore_acc,
    toDigitsCore_fuel n (n / 10 + 1) (n / 10) [] (by omega) (by omega)]

theorem digitChar_ne_nul (m : Nat) (h : m < 10) : Nat.digitChar m ≠ Char.ofNat 0 := by
  interval_cases m <;> decide

theorem toDigitsCore_ne_nul (f : Nat) : ∀ (n : Nat) (acc : List Char),
    (∀ c ∈ acc, c ≠ Char.ofNat 0) → ∀ c ∈ Nat.toDigitsCore 10 f n acc, c ≠ Char.ofNat 0 := by
  induction f with
  | zero => intro n acc hacc; simpa [Nat.toDigitsCore] using hacc
  | succ f ih =>
    intro n acc hacc
    have hd : ∀ c ∈ Nat.digitChar (n % 10) :: acc, c ≠ Char.ofNat 0 := by
      intro c hc
      rcases List.mem_cons.mp hc with rfl | hc
      · exact digitChar_ne_nul _ (Nat.mod_lt _ (by decide))
      · exact hacc c hc
    rw [toDigitsCore_succ]
    by_cases h : n / 10 = 0
    · rw [if_pos h]
      exact hd
    · rw [if_neg h]
      exact ih _ _ hd

theorem printf_d_ne_nul (w : Nat) (v : Int) : ∀ c ∈ printf_d w v, c ≠ Char.ofNat 0 := by
  have hdig : ∀ c ∈ Nat.toDigits 10 v.natAbs, c ≠ Char.ofNat 0 :=
    toDigitsCore_ne_nul _ _ [] (by simp)
  intro c hc
  unfold printf_d at hc
  simp only at hc
  split_ifs at hc
  · rcases List.mem_cons.mp hc with rfl | hc
    · decide
    · rcases List.mem_append.mp hc with hc | hc
      · rw [List.eq_of_mem_replicate hc]
        decide
      · exact hdig c hc
  · rcases List.mem_append.mp hc with hc | hc
    · rw [List.eq_of_mem_replicate hc]
      decide
    · exact hdig c hc

theorem formatFrame_ne_nul (t sp h e : Int) : ∀ c ∈ formatFrame t sp h e, c ≠ Char.ofNat 0 := by
  intro c hc
  unfold formatFrame at hc
  simp only [List.mem_cons, List.mem_append, List.not_mem_nil, or_false] at hc
  rcases hc with rfl | hc | rfl | hc | rfl | hc | rfl | hc | rfl
  · decide
  · exact printf_d_ne_nul _ _ c hc
  · decide
  · exact printf_d_ne_nul _ _ c hc
  · decide
  · exact printf_d_ne_nul _ _ c hc
  · decide
  · exact printf_d_ne_nul _ _ c hc
  · decide

theorem takeWhile_before_nul (l : List Char) (h : ∀ c ∈ l, c ≠ Char.ofNat 0) :
    (l ++ [Char.ofNat 0]).takeWhile (fun c => c ≠ Char.ofNat 0) = l := by
  induction l with
  | nil => simp [List.takeWhile]
  | cons a l ih =>
    have ha : a ≠ Char.ofNat 0 := h a (List.mem_cons_self _ _)
    have hl : ∀ c ∈ l, c ≠ Char.ofNat 0 := fun c hc => h c (List.mem_cons_of_mem _ hc)
    have ih' := ih hl
    rw [List.cons_append, List.takeWhile_cons, if_pos (by simpa using ha), ih']

/-- When the formatted text fits in the buffer, the bytes written are the
text itself. -/
theorem sendDataToServer_fits (t sp h e : Int) (hlen : (formatFrame t sp h e).length ≤ 63) :
    sendDataToServer t sp h e = formatFrame t sp h e := by
  unfold sendDataToServer snprintf strlen
  have htake : (formatFrame t sp h e).take (64 - 1) = formatFrame t sp h e :=
    List.take_of_length_le (by omega)
  simp only [htake, takeWhile_before_nul _ (formatFrame_ne_nul t sp h e)]
  simp

theorem toDigits_length_le (n : Nat) (h : n < 10 ^ 10) : (Nat.toDigits 10 n).length ≤ 10 :=
  Nat.toDigitsCore_length 10 (by decide) (n + 1) n 10 h (by decide)

theorem printf_d_length_le (w : Nat) (v : Int) (hw : w ≤ 11)
    (hlo : -2147483648 ≤ v) (hhi : v ≤ 2147483647) : (printf_d w v).length ≤ 11 := by
  have hd := toDigits_length_le v.natAbs (by omega)
  unfold printf_d
  simp only
  split_ifs
  · simp only [List.length_cons, List.length_append, List.length_replicate]
    omega
  · simp only [List.length_append, List.length_replicate]
    omega

theorem printf_d_two (v : Int) (h0 : 0 ≤ v) (h1 : v ≤ 99) : printf_d 2 v = twoDigits v := by
  obtain ⟨n, rfl⟩ := Int.eq_ofNat_of_zero_le h0
  have hn : n < 100 := by omega
  unfold printf_d twoDigits
  simp only [Int.natAbs_ofNat, Int.toNat_ofNat]
  rw [if_neg (by omega)]
  by_cases h : n < 10
  · rw [toDigits_lt10 n h, Nat.div_eq_of_lt h, Nat.mod_eq_of_lt h]
    rfl
  · rw [toDigits_step n (by omega), toDigits_lt10 (n / 10) (by omega)]
    rfl

theorem printf_d_four (v : Int) (h0 : 0 ≤ v) (h1 : v ≤ 9999) : printf_d 4 v = fourDigits v := by
  obtain ⟨n, rfl⟩ := Int.eq_ofNat_of_zero_le h0
  have hn : n < 10000 := by omega
  unfold printf_d fourDigits
  simp only [Int.natAbs_ofNat, Int.toNat_ofNat]
  rw [if_neg (by omega)]
  by_cases h : n < 10
  · rw [toDigits_lt10 n h, Nat.mod_eq_of_lt h,
      show n / 1000 = 0 by omega, show n / 100 % 10 = 0 by omega, show n / 10 % 10 = 0 by omega]
    rfl
  · by_cases h2 : n < 100
    · rw [toDigits_step n (by omega), toDigits_lt10 (n / 10) (by omega),
        show n / 1000 = 0 by omega, show n / 100 % 10 = 0 by omega,
        show n / 10 % 10 = n / 10 by omega]
      rfl
    · by_cases h3 : n < 1000
      · rw [toDigits_step n (by omega), toDigits_step (n / 10) (by omega),
          toDigits_lt10 (n / 10 / 10) (by omega),
          show n / 1000 = 0 by omega, show n / 100 % 10 = n / 10 / 10 by omega]
        rfl
      · rw [toDigits_step n (by omega), toDigits_step (n / 10) (by omega),
          toDigits_step (n / 10 / 10) (by omega), toDigits_lt10 (n / 10 / 10 / 10) (by omega),
          show n / 1000 = n / 10 / 10 / 10 by omega,
          show n / 100 % 10 = n / 10 / 10 % 10 by omega]
        rfl

/-- C6: for temperature and setPoint in `0..99`, heat in `{0,1}` and seconds in
`0..9999`, `sendDataToServer` writes exactly the 14 bytes
`<TT,SS,H,EEEE>` with zero-padded decimal fields, none of them a NUL; the
two examples of the specification are instances. -/
theorem status_frame_format (t sp h e : Int) (ht0 : 0 ≤ t) (ht1 : t ≤ 99)
    (hs0 : 0 ≤ sp) (hs1 : sp ≤ 99) (hh : h = 0 ∨ h = 1) (he0 : 0 ≤ e) (he1 : e ≤ 9999) :
    sendDataToServer t sp h e =
      '<' :: (twoDigits t ++ ',' :: (twoDigits sp ++
        ',' :: (Nat.digitChar h.toNat :: ',' :: (fourDigits e ++ ['>'])))) ∧
    (sendDataToServer t sp h e).length = 14 ∧
    Char.ofNat 0 ∉ sendDataToServer t sp h e ∧
    sendDataToServer 5 25 1 3 = "<05,25,1,0003>".toList ∧
    sendDataToServer 22 25 1 7 = "<22,25,1,0007>".toList := by
  have hheat : printf_d 0 h = [Nat.digitChar h.toNat] := by
    rcases hh with rfl | rfl <;> decide
  have hfmt : formatFrame t sp h e =
      '<' :: (twoDigits t ++ ',' :: (twoDigits sp ++
        ',' :: (Nat.digitChar h.toNat :: ',' :: (fourDigits e ++ ['>'])))) := by
    unfold formatFrame
    rw [printf_d_two t ht0 ht1, printf_d_two sp hs0 hs1, printf_d_four e he0 he1, hheat]
    rfl
  have hlen : (formatFrame t sp h e).length = 14 := by
    rw [hfmt]
    simp [twoDigits, fourDigits]
  have hsend := sendDataToServer_fits t sp h e (by omega)
  refine ⟨by rw [hsend, hfmt], by rw [hsend, hlen], ?_, by decide, by decide⟩
  rw [hsend]
  intro hmem
  exact formatFrame_ne_nul t sp h e _ hmem rfl

theorem status_frame_format_witness :
    ((0 : Int) ≤ 5 ∧ (5 : Int) ≤ 99 ∧ (0 : Int) ≤ 25 ∧ (25 : Int) ≤ 99 ∧
      ((1 : Int) = 0 ∨ (1 : Int) = 1) ∧ (0 : Int) ≤ 3 ∧ (3 : Int) ≤ 9999) ∧
    (sendDataToServer 5 25 1 3 =
      '<' :: (twoDigits 5 ++ ',' :: (twoDigits 25 ++
        ',' :: (Nat.digitChar (1 : Int).toNat :: ',' :: (fourDigits 3 ++ ['>'])))) ∧
    (sendDataToServer 5 25 1 3).length = 14 ∧
    Char.ofNat 0 ∉ sendDataToServer 5 25 1 3 ∧
    sendDataToServer 5 25 1 3 = "<05,25,1,0003>".toList ∧
    sendDataToServer 22 25 1 7 = "<22,25,1,0007>".toList) :=
  ⟨by decide,
    status_frame_format 5 25 1 3 (by decide) (by decide) (by decide) (by decide)
      (Or.inr rfl) (by decide) (by decide)⟩

/-- C10: for 32-bit values of the four arguments the text of
`"<%02d,%02d,%d,%04d>"` has at most 49 characters, so with its terminator it
fits the 64-byte buffer and the bytes `sendDataToServer` writes are the whole
text. -/
theorem frame_never_truncated (t sp h e : Int)
    (ht0 : -2147483648 ≤ t) (ht1 : t ≤ 2147483647)
    (hs0 : -2147483648 ≤ sp) (hs1 : sp ≤ 2147483647)
    (hh0 : -2147483648 ≤ h) (hh1 : h ≤ 2147483647)
    (he0 : -2147483648 ≤ e) (he1 : e ≤ 2147483647) :
    (formatFrame t sp h e).length ≤ 49 ∧
    (formatFrame t sp h e).length + 1 ≤ 64 ∧
    snprintf 64 (formatFrame t sp h e) = formatFrame t sp h e ++ [Char.ofNat 0] ∧
    sendDataToServer t sp h e = formatFrame t sp h e := by
  have h1 := printf_d_length_le 2 t (by decide) ht0 ht1
  have h2 := printf_d_length_le 2 sp (by decide) hs0 hs1
  have h3 := printf_d_length_le 0 h (by decide) hh0 hh1
  have h4 := printf_d_length_le 4 e (by decide) he0 he1
  have hlen : (formatFrame t sp h e).length ≤ 49 := by
    unfold formatFrame
    simp only [List.length_cons, List.length_append, List.length_nil]
    omega
  refine ⟨hlen, by omega, ?_, sendDataToServer_fits t sp h e (by omega)⟩
  unfold snprintf
  rw [List.take_of_length_le (by omega)]

theorem frame_never_truncated_witness :
    ((-2147483648 : Int) ≤ -2147483648 ∧ (-2147483648 : Int) ≤ 2147483647) ∧
    ((formatFrame (-2147483648) (-2147483648) (-2147483648) (-2147483648)).length ≤ 49 ∧
    (formatFrame (-2147483648) (-2147483648) (-2147483648) (-2147483648)).length + 1 ≤ 64 ∧
    snprintf 64 (formatFrame (-2147483648) (-2147483648) (-2147483648) (-2147483648))
      = formatFrame (-2147483648) (-2147483648) (-2147483648) (-2147483648) ++ [Char.ofNat 0] ∧
    sendDataToServer (-2147483648) (-2147483648) (-2147483648) (-2147483648)
      = formatFrame (-2147483648) (-2147483648) (-2147483648) (-2147483648)) :=
  ⟨by decide,
    frame_never_truncated (-2147483648) (-2147483648) (-2147483648) (-2147483648)
      (by decide) (by decide) (by decide) (by decide)
      (by decide) (by decide) (by decide) (by decide)⟩

/-! ## Runs of events -/

theorem run_setPoint (evs : List Event) : ∀ s : State,
    (run s evs).1.setPoint
      = s.setPoint + (evs.count Event.increasePress : Int) - (evs.count Event.decreasePress : Int) := by
  induction evs with
  | nil => intro s; simp [run]
  | cons ev evs ih =>
    intro s
    simp only [run]
    rw [ih]
    cases ev with
    | timerFire => simp [step, timerCallback]
    | loop bus =>
      have hsp : (mainThreadLoop bus s).1.setPoint = s.setPoint := by
        rw [mainThreadLoop_eq]
        split_ifs <;> rfl
      simp [step, hsp]
    | increasePress =>
      simp [step, gpioButtonFxn0]
      omega
    | decreasePress =>
      simp [step, gpioButtonFxn1]
      omega

/-- C7: from the initial state, after any finite sequence of serialized timer
fires, loop iterations and button presses, `setPoint` is `25` plus the number
of increase presses minus the number of decrease presses; a timer fire or a
loop iteration leaves it unchanged and each press moves it by exactly one. -/
theorem setPoint_accounting (evs : List Event) (s : State) (bus : I2CResult) :
    (run initState evs).1.setPoint
      = 25 + (evs.count Event.increasePress : Int) - (evs.count Event.decreasePress : Int) ∧
    (step Event.timerFire s).1.setPoint = s.setPoint ∧
    (step (Event.loop bus) s).1.setPoint = s.setPoint ∧
    (step Event.increasePress s).1.setPoint = s.setPoint + 1 ∧
    (step Event.decreasePress s).1.setPoint = s.setPoint - 1 := by
  refine ⟨?_, rfl, ?_, rfl, rfl⟩
  · rw [run_setPoint]
    rfl
  · show (mainThreadLoop bus s).1.setPoint = s.setPoint
    rw [mainThreadLoop_eq]
    split_ifs <;> rfl

theorem countTransfers_append (a b : List Action) :
    countTransfers (a ++ b) = countTransfers a + countTransfers b := by
  simp [countTransfers]

theorem loop_kinds (bus : I2CResult) (s : State) :
    (mainThreadLoop bus s).2.map Action.kind =
      if s.TimerFlag ≠ 0 then
        (if (s.seconds + 1) % 2 = 0 then [ActionKind.transfer] else [])
          ++ [ActionKind.led, ActionKind.frame]
      else [] := by
  rw [mainThreadLoop_eq]
  simp only [tmod_two_eq_zero_iff]
  split_ifs <;> simp [Action.kind]

theorem loop_transfers (bus : I2CResult) (s : State) :
    countTransfers (mainThreadLoop bus s).2 =
      if s.TimerFlag ≠ 0 ∧ (s.seconds + 1) % 2 = 0 then 1 else 0 := by
  rw [mainThreadLoop_eq]
  simp only [tmod_two_eq_zero_iff]
  by_cases hf : s.TimerFlag ≠ 0
  · by_cases hp : (s.seconds + 1) % 2 = 0
    · by_cases hc : readTemp bus < s.setPoint <;> simp [countTransfers, hf, hp, hc]
    · by_cases hc : s.temperature < s.setPoint <;> simp [countTransfers, hf, hp, hc]
  · simp [countTransfers, hf]

theorem loop_seconds (bus : I2CResult) (s : State) :
    (mainThreadLoop bus s).1.seconds = s.seconds + (if s.TimerFlag ≠ 0 then 1 else 0) ∧
    ((mainThreadLoop bus s).1.TimerFlag = 0) := by
  rw [mainThreadLoop_eq]
  by_cases hf : s.TimerFlag ≠ 0
  · simp [hf]
  · simp only [if_neg hf]
    simp only [ne_eq, not_not] at hf
    simp [hf]

theorem run_cadence (evs : List Event) : ∀ s : State,
    (run s evs).1.seconds
      = s.seconds + (observedTicks (decide (s.TimerFlag ≠ 0)) evs : Int) ∧
    (countTransfers (run s evs).2 : Int)
      = (s.seconds + (observedTicks (decide (s.TimerFlag ≠ 0)) evs : Int)) / 2 - s.seconds / 2 := by
  induction evs with
  | nil => intro s; simp [run, observedTicks, countTransfers]
  | cons ev evs ih =>
    intro s
    simp only [run, countTransfers_append]
    cases ev with
    | timerFire =>
      have h := ih (timerCallback s)
      simpa [step, timerCallback, observedTicks, countTransfers] using h
    | loop bus =>
      have h := ih (mainThreadLoop bus s).1
      have hs := loop_seconds bus s
      have ht := loop_transfers bus s
      simp only [step]
      rw [hs.2] at h
      have hd0 : decide ((0 : Nat) ≠ 0) = false := by decide
      rw [hd0] at h
      rw [hs.1] at h
      by_cases hf : s.TimerFlag ≠ 0
      · rw [if_pos hf] at h
        have hdt : decide (s.TimerFlag ≠ 0) = true := decide_eq_true hf
        rw [hdt]
        simp only [observedTicks, if_true]
        push_cast
        rw [h.1, h.2, ht]
        constructor
        · ring
        · by_cases hp : (s.seconds + 1) % 2 = 0
          · rw [if_pos ⟨hf, hp⟩]
            push_cast
            omega
          · rw [if_neg (fun hc => hp hc.2)]
            push_cast
            omega
      · rw [if_neg hf] at h
        have hdf : decide (s.TimerFlag ≠ 0) = false := decide_eq_false hf
        rw [hdf]
        simp only [observedTicks]
        rw [if_neg (fun hc => hf hc.1)] at ht
        push_cast
        rw [h.1, h.2, ht]
        constructor
        · simp
        · simp
    | increasePress =>
      have h := ih (gpioButtonFxn0 s)
      simpa [step, gpioButtonFxn0, observedTicks, countTransfers] using h
    | decreasePress =>
      have h := ih (gpioButtonFxn1 s)
      simpa [step, gpioButtonFxn1, observedTicks, countTransfers] using h

theorem observedTicks_cycles (bs : List I2CResult) (flag : Bool) :
    observedTicks flag (cycles bs) = bs.length := by
  induction bs generalizing flag with
  | nil => rfl
  | cons b bs ih =>
    simp only [cycles, observedTicks, if_true, List.length_cons]
    rw [ih]
    omega

/-- C8: from the initial state, after `N` observed ticks `readTemp` has issued
exactly `N / 2` transfers, for any interleaving of events and in particular
for `N` plain cycles; a cycle issues one transfer when its new elapsed count
is even and none when it is odd; over four cycles the transfers are the two
of the second and fourth cycle. -/
theorem sampling_cadence (evs : List Event) (bs : List I2CResult) (bus : I2CResult)
    (s : State) (b1 b2 b3 b4 : I2CResult) :
    countTransfers (run initState evs).2 = observedTicks false evs / 2 ∧
    (run initState evs).1.seconds = (observedTicks false evs : Int) ∧
    countTransfers (run initState (cycles bs)).2 = bs.length / 2 ∧
    countTransfers (mainThreadLoop bus (timerCallback s)).2
      = (if (s.seconds + 1) % 2 = 0 then 1 else 0) ∧
    countTransfers (run initState (cycles [b1, b2, b3, b4])).2 = 2 ∧
    (run initState (cycles [b1, b2, b3, b4])).2.map Action.kind
      = [ActionKind.led, ActionKind.frame,
         ActionKind.transfer, ActionKind.led, ActionKind.frame,
         ActionKind.led, ActionKind.frame,
         ActionKind.transfer, ActionKind.led, ActionKind.frame] := by
  have hgen : ∀ l : List Event,
      countTransfers (run initState l).2 = observedTicks false l / 2 := by
    intro l
    have h := (run_cadence l initState).2
    have hd : decide (initState.TimerFlag ≠ 0) = false := by decide
    have h0 : initState.seconds = 0 := rfl
    rw [hd, h0] at h
    omega
  refine ⟨hgen evs, ?_, ?_, ?_, ?_, ?_⟩
  · have h := (run_cadence evs initState).1
    have hd : decide (initState.TimerFlag ≠ 0) = false := by decide
    have h0 : initState.seconds = 0 := rfl
    rw [hd, h0] at h
    omega
  · rw [hgen, observedTicks_cycles]
  · rw [loop_transfers]
    simp [timerCallback]
  · rw [hgen, observedTicks_cycles]
    simp
  · simp only [cycles, run, step, List.map_append, loop_kinds, List.map_nil]
    simp [timerCallback, loop_seconds, initState]

/-! ## Ticks, cycles and footprints -/

theorem loop_idle (bus : I2CResult) (s : State) (h : s.TimerFlag = 0) :
    mainThreadLoop bus s = (s, []) := by
  rw [mainThreadLoop_eq]
  rw [if_neg (by simp [h])]

theorem run_idle_loops (bs : List I2CResult) (s : State) (h : s.TimerFlag = 0) :
    run s (bs.map Event.loop) = (s, []) := by
  induction bs with
  | nil => rfl
  | cons b bs ih =>
    simp only [List.map_cons, run, step, loop_idle b s h, ih]
    rfl

/-- C11: a loop iteration that finds `TimerFlag` clear changes no state and
makes no driver call; every iteration leaves the flag clear, so after an
iteration that observed it set, any number of further iterations with no
timer fire in between change nothing and produce no output. -/
theorem no_spurious_cycles (bus : I2CResult) (s t : State) (bs : List I2CResult)
    (h : s.TimerFlag = 0) :
    mainThreadLoop bus s = (s, []) ∧
    (mainThreadLoop bus (timerCallback t)).1.TimerFlag = 0 ∧
    run (mainThreadLoop bus (timerCallback t)).1 (bs.map Event.loop)
      = ((mainThreadLoop bus (timerCallback t)).1, []) := by
  have hc := (loop_seconds bus (timerCallback t)).2
  exact ⟨loop_idle bus s h, hc, run_idle_loops bs _ hc⟩

theorem no_spurious_cycles_witness :
    initState.TimerFlag = 0 ∧
    (mainThreadLoop ⟨true, 0x0C, 0x80⟩ initState = (initState, []) ∧
    (mainThreadLoop ⟨true, 0x0C, 0x80⟩ (timerCallback initState)).1.TimerFlag = 0 ∧
    run (mainThreadLoop ⟨true, 0x0C, 0x80⟩ (timerCallback initState)).1
        ([⟨true, 0x0C, 0x80⟩, ⟨false, 0, 0⟩].map Event.loop)
      = ((mainThreadLoop ⟨true, 0x0C, 0x80⟩ (timerCallback initState)).1, [])) :=
  ⟨rfl, no_spurious_cycles ⟨true, 0x0C, 0x80⟩ initState initState
    [⟨true, 0x0C, 0x80⟩, ⟨false, 0, 0⟩] rfl⟩

theorem run_cons (e : Event) (es : List Event) (s : State) :
    run s (e :: es) = ((run (step e s).1 es).1, (step e s).2 ++ (run (step e s).1 es).2) :=
  rfl

theorem run_timerFires (n : Nat) (s : State) :
    run s (List.replicate (n + 1) Event.timerFire) = (timerCallback s, []) := by
  induction n generalizing s with
  | zero => rfl
  | succ n ih =>
    rw [List.replicate_succ, run_cons, ih]
    rfl

theorem run_append (a b : List Event) : ∀ s : State,
    run s (a ++ b) = ((run (run s a).1 b).1, (run s a).2 ++ (run (run s a).1 b).2) := by
  induction a with
  | nil => intro s; simp [run]
  | cons e a ih =>
    intro s
    rw [List.cons_append, run_cons, run_cons, ih]
    simp [List.append_assoc]

theorem loop_frames (bus : I2CResult) (s : State) (h : s.TimerFlag ≠ 0) :
    frames (mainThreadLoop bus s).2 =
      [sendDataToServer (mainThreadLoop bus s).1.temperature s.setPoint
        (mainThreadLoop bus s).1.heat (s.seconds + 1)] := by
  rw [mainThreadLoop_eq]
  simp only [if_pos h]
  split_ifs <;> simp [frames]

/-- C15: `timerCallback` is idempotent, and two or more timer fires followed
by one loop iteration have the effect of a single fire followed by that
iteration: the elapsed count advances by exactly one and exactly one frame is
emitted. -/
theorem tick_coalescing (s : State) (n : Nat) (bus : I2CResult) :
    timerCallback (timerCallback s) = timerCallback s ∧
    run s (List.replicate (n + 2) Event.timerFire ++ [Event.loop bus])
      = run s [Event.timerFire, Event.loop bus] ∧
    (run s (List.replicate (n + 2) Event.timerFire ++ [Event.loop bus])).1.seconds
      = s.seconds + 1 ∧
    (frames (run s (List.replicate (n + 2) Event.timerFire ++ [Event.loop bus])).2).length
      = 1 := by
  have hrun : run s (List.replicate (n + 2) Event.timerFire ++ [Event.loop bus])
      = run s [Event.timerFire, Event.loop bus] := by
    rw [run_append, run_timerFires]
    simp [run, step]
  have hflag : (timerCallback s).TimerFlag ≠ 0 := by simp [timerCallback]
  refine ⟨rfl, hrun, ?_, ?_⟩
  · rw [hrun]
    simp only [run, step]
    rw [(loop_seconds bus (timerCallback s)).1, if_pos hflag]
    rfl
  · rw [hrun]
    simp only [run, step, List.nil_append, List.append_nil]
    rw [loop_frames bus _ hflag]
    rfl

/-- C16: on the state `(TimerFlag, setPoint, seconds, temperature, heat)`,
`timerCallback` changes only `TimerFlag`, `gpioButtonFxn0` only `setPoint`
(by `+1`), `gpioButtonFxn1` only `setPoint` (by `-1`), and a loop iteration
never changes `setPoint`. -/
theorem write_footprints (s : State) (bus : I2CResult) :
    timerCallback s = { s with TimerFlag := 1 } ∧
    ((timerCallback s).setPoint = s.setPoint ∧ (timerCallback s).seconds = s.seconds ∧
      (timerCallback s).temperature = s.temperature ∧ (timerCallback s).heat = s.heat) ∧
    ((gpioButtonFxn0 s).setPoint = s.setPoint + 1 ∧
      (gpioButtonFxn0 s).TimerFlag = s.TimerFlag ∧ (gpioButtonFxn0 s).seconds = s.seconds ∧
      (gpioButtonFxn0 s).temperature = s.temperature ∧ (gpioButtonFxn0 s).heat = s.heat) ∧
    ((gpioButtonFxn1 s).setPoint = s.setPoint - 1 ∧
      (gpioButtonFxn1 s).TimerFlag = s.TimerFlag ∧ (gpioButtonFxn1 s).seconds = s.seconds ∧
      (gpioButtonFxn1 s).temperature = s.temperature ∧ (gpioButtonFxn1 s).heat = s.heat) ∧
    (mainThreadLoop bus s).1.setPoint = s.setPoint := by
  refine ⟨rfl, ⟨rfl, rfl, rfl, rfl⟩, ⟨rfl, rfl, rfl, rfl, rfl⟩, ⟨rfl, rfl, rfl, rfl, rfl⟩, ?_⟩
  rw [mainThreadLoop_eq]
  split_ifs <;> rfl

theorem handleAll_cons (i : Interrupt) (irqs : List Interrupt) (s : State) :
    handleAll (i :: irqs) s = handleAll irqs (i.handle s) := rfl

/-- Handlers leave the locals of `mainThread` alone and move `setPoint` by the
presses. -/
theorem handleAll_fields (irqs : List Interrupt) : ∀ s : State,
    (handleAll irqs s).seconds = s.seconds ∧
    (handleAll irqs s).temperature = s.temperature ∧
    (handleAll irqs s).heat = s.heat ∧
    (handleAll irqs s).setPoint
      = s.setPoint + (irqs.count Interrupt.button0 : Int)
          - (irqs.count Interrupt.button1 : Int) := by
  induction irqs with
  | nil => intro s; simp [handleAll]
  | cons i irqs ih =>
    intro s
    rw [handleAll_cons]
    cases i with
    | timer =>
      obtain ⟨h1, h2, h3, h4⟩ := ih (Interrupt.timer.handle s)
      refine ⟨h1, h2, h3, ?_⟩
      rw [h4]
      simp [Interrupt.handle, timerCallback]
    | button0 =>
      obtain ⟨h1, h2, h3, h4⟩ := ih (Interrupt.button0.handle s)
      refine ⟨h1, h2, h3, ?_⟩
      rw [h4]
      simp [Interrupt.handle, gpioButtonFxn0]
      omega
    | button1 =>
      obtain ⟨h1, h2, h3, h4⟩ := ih (Interrupt.button1.handle s)
      refine ⟨h1, h2, h3, ?_⟩
      rw [h4]
      simp [Interrupt.handle, gpioButtonFxn1]
      omega

/-- C17 (counterexample): the state `⟨1, 25, 1, 0, 1⟩` is reached from the
initial state by one cycle and a second timer fire.  In the next cycle the
sensor reads `25`, the comparison `25 < 25` with setPoint `25` turns the LED
off, a press of the increase button is taken before `sendDataToServer` is
called, and the frame is `<25,26,0,0002>`: its setPoint `26` is not the one
compared, and the frame differs from the one built from the compared
setPoint. -/
theorem frame_setPoint_not_compared :
    (run initState
      [Event.timerFire, Event.loop ⟨true, 0x0C, 0x80⟩, Event.timerFire]).1
        = ⟨1, 25, 1, 0, 1⟩ ∧
    (mainThreadCycle ⟨true, 0x0C, 0x80⟩ [Interrupt.button0] ⟨1, 25, 1, 0, 1⟩).1.temperature
      = 25 ∧
    ledWrites (mainThreadCycle ⟨true, 0x0C, 0x80⟩ [Interrupt.button0] ⟨1, 25, 1, 0, 1⟩).2
      = [LedLevel.CONFIG_GPIO_LED_OFF] ∧
    frames (mainThreadCycle ⟨true, 0x0C, 0x80⟩ [Interrupt.button0] ⟨1, 25, 1, 0, 1⟩).2
      = ["<25,26,0,0002>".toList] ∧
    frames (mainThreadCycle ⟨true, 0x0C, 0x80⟩ [Interrupt.button0] ⟨1, 25, 1, 0, 1⟩).2
      ≠ [sendDataToServer 25 25 0 2] := by
  have h25 : readTemp ⟨true, 0x0C, 0x80⟩ = 25 := by
    rw [readTemp_clear _ _ (by decide)]
    decide
  have hf : frames
      (mainThreadCycle ⟨true, 0x0C, 0x80⟩ [Interrupt.button0] ⟨1, 25, 1, 0, 1⟩).2
        = ["<25,26,0,0002>".toList] := by
    simp [mainThreadCycle, handleAll, Interrupt.handle, gpioButtonFxn0, tmod_two_eq_zero_iff,
      h25, frames]
    decide
  refine ⟨?_, ?_, ?_, hf, ?_⟩
  · simp [run, step, timerCallback, initState, mainThreadLoop_eq, tmod_two_eq_zero_iff]
  · simp [mainThreadCycle, handleAll, Interrupt.handle, gpioButtonFxn0, tmod_two_eq_zero_iff,
      h25]
  · simp [mainThreadCycle, handleAll, Interrupt.handle, gpioButtonFxn0, tmod_two_eq_zero_iff,
      h25, ledWrites]
  · rw [hf]
    decide

/-- C17 (amended): a control cycle makes exactly one LED write and one frame.
With `T` the temperature after the optional sample and `S` the setPoint read
by the comparison, the level is ON and the heat digit of the frame `1` when
`T < S`, OFF and `0` otherwise, and the frame carries this same `T`.  The
setPoint in the frame is the value of the global when `sendDataToServer` is
called: `S` moved by the button presses taken since the comparison, hence `S`
itself when no interrupt is taken in between. -/
theorem actuator_frame_agree (bus : I2CResult) (irqs : List Interrupt) (s : State)
    (h : s.TimerFlag ≠ 0) :
    (mainThreadCycle bus irqs s).1.temperature
        = (if (s.seconds + 1) % 2 = 0 then readTemp bus else s.temperature) ∧
    ledWrites (mainThreadCycle bus irqs s).2
        = [if (mainThreadCycle bus irqs s).1.temperature < s.setPoint
            then LedLevel.CONFIG_GPIO_LED_ON else LedLevel.CONFIG_GPIO_LED_OFF] ∧
    frames (mainThreadCycle bus irqs s).2
        = [sendDataToServer (mainThreadCycle bus irqs s).1.temperature
            (s.setPoint + (irqs.count Interrupt.button0 : Int)
              - (irqs.count Interrupt.button1 : Int))
            (if (mainThreadCycle bus irqs s).1.temperature < s.setPoint then 1 else 0)
            (s.seconds + 1)] ∧
    (ledWrites (mainThreadCycle bus irqs s).2 = [LedLevel.CONFIG_GPIO_LED_ON] ↔
        (mainThreadCycle bus irqs s).1.heat = 1) ∧
    (ledWrites (mainThreadCycle bus irqs s).2 = [LedLevel.CONFIG_GPIO_LED_OFF] ↔
        (mainThreadCycle bus irqs s).1.heat = 0) ∧
    frames (mainThreadCycle bus irqs s).2
        = [sendDataToServer (mainThreadCycle bus irqs s).1.temperature
            (mainThreadCycle bus irqs s).1.setPoint (mainThreadCycle bus irqs s).1.heat
            (mainThreadCycle bus irqs s).1.seconds] ∧
    frames (mainThreadLoop bus s).2
        = [sendDataToServer (mainThreadLoop bus s).1.temperature s.setPoint
            (if (mainThreadLoop bus s).1.temperature < s.setPoint then 1 else 0)
            (s.seconds + 1)] := by
  have hloop : frames (mainThreadLoop bus s).2
        = [sendDataToServer (mainThreadLoop bus s).1.temperature s.setPoint
            (if (mainThreadLoop bus s).1.temperature < s.setPoint then 1 else 0)
            (s.seconds + 1)] := by
    rw [mainThreadLoop_eq]
    simp only [if_pos h]
    split_ifs <;> simp [frames]
  refine ⟨?_, ?_, ?_, ?_, ?_, ?_, hloop⟩ <;>
  · unfold mainThreadCycle
    simp only [if_pos h, tmod_two_eq_zero_iff]
    by_cases hp : (s.seconds + 1) % 2 = 0
    · simp only [if_pos hp]
      by_cases hc : readTemp bus < s.setPoint
      · simp [hc, ledWrites, frames, handleAll_fields]
      · simp [hc, ledWrites, frames, handleAll_fields]
    · simp only [if_neg hp]
      by_cases hc : s.temperature < s.setPoint
      · simp [hc, ledWrites, frames, handleAll_fields]
      · simp [hc, ledWrites, frames, handleAll_fields]

theorem actuator_frame_agree_witness :
    (⟨1, 25, 1, 0, 1⟩ : State).TimerFlag ≠ 0 ∧
    ((mainThreadCycle ⟨true, 0x0C, 0x80⟩ [Interrupt.button0] ⟨1, 25, 1, 0, 1⟩).1.temperature
        = (if ((1 : Int) + 1) % 2 = 0 then readTemp ⟨true, 0x0C, 0x80⟩ else 0) ∧
    ledWrites (mainThreadCycle ⟨true, 0x0C, 0x80⟩ [Interrupt.button0] ⟨1, 25, 1, 0, 1⟩).2
        = [if (mainThreadCycle ⟨true, 0x0C, 0x80⟩ [Interrupt.button0]
                ⟨1, 25, 1, 0, 1⟩).1.temperature < 25
            then LedLevel.CONFIG_GPIO_LED_ON else LedLevel.CONFIG_GPIO_LED_OFF] ∧
    frames (mainThreadCycle ⟨true, 0x0C, 0x80⟩ [Interrupt.button0] ⟨1, 25, 1, 0, 1⟩).2
        = [sendDataToServer
            (mainThreadCycle ⟨true, 0x0C, 0x80⟩ [Interrupt.button0]
              ⟨1, 25, 1, 0, 1⟩).1.temperature
            ((25 : Int) + (([Interrupt.button0].count Interrupt.button0 : Nat) : Int)
              - (([Interrupt.button0].count Interrupt.button1 : Nat) : Int))
            (if (mainThreadCycle ⟨true, 0x0C, 0x80⟩ [Interrupt.button0]
                  ⟨1, 25, 1, 0, 1⟩).1.temperature < 25 then 1 else 0)
            ((1 : Int) + 1)] ∧
    (ledWrites (mainThreadCycle ⟨true, 0x0C, 0x80⟩ [Interrupt.button0] ⟨1, 25, 1, 0, 1⟩).2
        = [LedLevel.CONFIG_GPIO_LED_ON] ↔
        (mainThreadCycle ⟨true, 0x0C, 0x80⟩ [Interrupt.button0] ⟨1, 25, 1, 0, 1⟩).1.heat = 1) ∧
    (ledWrites (mainThreadCycle ⟨true, 0x0C, 0x80⟩ [Interrupt.button0] ⟨1, 25, 1, 0, 1⟩).2
        = [LedLevel.CONFIG_GPIO_LED_OFF] ↔
        (mainThreadCycle ⟨true, 0x0C, 0x80⟩ [Interrupt.button0] ⟨1, 25, 1, 0, 1⟩).1.heat = 0) ∧
    frames (mainThreadCycle ⟨true, 0x0C, 0x80⟩ [Interrupt.button0] ⟨1, 25, 1, 0, 1⟩).2
        = [sendDataToServer
            (mainThreadCycle ⟨true, 0x0C, 0x80⟩ [Interrupt.button0]
              ⟨1, 25, 1, 0, 1⟩).1.temperature
            (mainThreadCycle ⟨true, 0x0C, 0x80⟩ [Interrupt.button0] ⟨1, 25, 1, 0, 1⟩).1.setPoint
            (mainThreadCycle ⟨true, 0x0C, 0x80⟩ [Interrupt.button0] ⟨1, 25, 1, 0, 1⟩).1.heat
            (mainThreadCycle ⟨true, 0x0C, 0x80⟩ [Interrupt.button0] ⟨1, 25, 1, 0, 1⟩).1.seconds] ∧
    frames (mainThreadLoop ⟨true, 0x0C, 0x80⟩ ⟨1, 25, 1, 0, 1⟩).2
        = [sendDataToServer (mainThreadLoop ⟨true, 0x0C, 0x80⟩ ⟨1, 25, 1, 0, 1⟩).1.temperature 25
            (if (mainThreadLoop ⟨true, 0x0C, 0x80⟩ ⟨1, 25, 1, 0, 1⟩).1.temperature < 25
              then 1 else 0)
            ((1 : Int) + 1)]) :=
  ⟨by decide,
    actuator_frame_agree ⟨true, 0x0C, 0x80⟩ [Interrupt.button0] ⟨1, 25, 1, 0, 1⟩ (by decide)⟩

theorem frames_append (a b : List Action) : frames (a ++ b) = frames a ++ frames b := by
  induction a with
  | nil => rfl
  | cons x a ih =>
    cases x <;> simp [frames, ih]

theorem framesFrom_index (l : List (List Char)) : ∀ (n : Int) (k : Nat),
    framesFrom n l → k < l.length →
    ∃ t sp h : Int, l[k]? = some (sendDataToServer t sp h (n + (k : Int) + 1)) := by
  induction l with
  | nil => intro n k _ hk; simp at hk
  | cons f fs ih =>
    intro n k hf hk
    cases k with
    | zero =>
      obtain ⟨t, sp, h, hfe⟩ := hf.1
      exact ⟨t, sp, h, by simp [hfe]⟩
    | succ k =>
      obtain ⟨t, sp, h, hfe⟩ := ih (n + 1) k hf.2 (by simpa using hk)
      refine ⟨t, sp, h, ?_⟩
      rw [List.getElem?_cons_succ, hfe]
      congr 2
      push_cast
      ring

theorem run_frames (evs : List Event) : ∀ s : State,
    framesFrom s.seconds (frames (run s evs).2) ∧
    (frames (run s evs).2).length = observedTicks (decide (s.TimerFlag ≠ 0)) evs := by
  induction evs with
  | nil => intro s; simp [run, frames, framesFrom, observedTicks]
  | cons ev evs ih =>
    intro s
    rw [run_cons]
    simp only [frames_append]
    cases ev with
    | timerFire =>
      have h := ih (timerCallback s)
      simpa [step, timerCallback, observedTicks, frames] using h
    | loop bus =>
      have h := ih (mainThreadLoop bus s).1
      have hs := loop_seconds bus s
      simp only [step]
      rw [hs.2, hs.1] at h
      have hd0 : decide ((0 : Nat) ≠ 0) = false := by decide
      rw [hd0] at h
      by_cases hf : s.TimerFlag ≠ 0
      · rw [if_pos hf] at h
        have hdt : decide (s.TimerFlag ≠ 0) = true := decide_eq_true hf
        rw [hdt, loop_frames bus s hf]
        simp only [observedTicks, if_true, List.singleton_append, List.length_cons, framesFrom]
        exact ⟨⟨⟨_, _, _, rfl⟩, h.1⟩, by omega⟩
      · have hdf : decide (s.TimerFlag ≠ 0) = false := decide_eq_false hf
        have hz : s.TimerFlag = 0 := by
          by_contra hc
          exact hf hc
        rw [if_neg hf] at h
        rw [hdf, loop_idle bus s hz]
        simp only [observedTicks, frames, List.nil_append]
        simp only [add_zero] at h
        rw [loop_idle bus s hz] at h
        exact ⟨h.1, by simpa using h.2⟩
    | increasePress =>
      have h := ih (gpioButtonFxn0 s)
      simpa [step, gpioButtonFxn0, observedTicks, frames] using h
    | decreasePress =>
      have h := ih (gpioButtonFxn1 s)
      simpa [step, gpioButtonFxn1, observedTicks, frames] using h

/-- C12: from the initial state, for any sequence of events, the number of
frames and the elapsed count both equal the number of observed ticks; the
`k`-th frame (`k ≥ 1`) is the one `sendDataToServer` writes for elapsed count
`k`; each observed tick adds exactly one to the count and emits exactly one
frame; the count never decreases when a run is extended. -/
theorem one_frame_per_tick (evs more : List Event) (s : State) (bus : I2CResult) (k : Nat)
    (hk : k < observedTicks false evs) :
    (frames (run initState evs).2).length = observedTicks false evs ∧
    (run initState evs).1.seconds = (observedTicks false evs : Int) ∧
    (∃ t sp h : Int,
      (frames (run initState evs).2)[k]? = some (sendDataToServer t sp h ((k : Int) + 1))) ∧
    (mainThreadLoop bus (timerCallback s)).1.seconds = s.seconds + 1 ∧
    (frames (mainThreadLoop bus (timerCallback s)).2).length = 1 ∧
    (run initState evs).1.seconds ≤ (run initState (evs ++ more)).1.seconds := by
  have hfr := run_frames evs initState
  have hd : decide (initState.TimerFlag ≠ 0) = false := by decide
  have h0 : initState.seconds = 0 := rfl
  rw [hd, h0] at hfr
  have hflag : (timerCallback s).TimerFlag ≠ 0 := by simp [timerCallback]
  refine ⟨hfr.2, ?_, ?_, ?_, ?_, ?_⟩
  · have h := (run_cadence evs initState).1
    rw [hd, h0] at h
    omega
  · obtain ⟨t, sp, h, he⟩ := framesFrom_index _ 0 k hfr.1 (by omega)
    refine ⟨t, sp, h, ?_⟩
    rw [he]
    congr 2
    ring
  · rw [(loop_seconds bus (timerCallback s)).1, if_pos hflag]
    rfl
  · rw [loop_frames bus _ hflag]
    rfl
  · rw [run_append]
    have h := (run_cadence more (run initState evs).1).1
    simp only
    omega

theorem one_frame_per_tick_witness :
    1 < observedTicks false (cycles [⟨true, 0x0C, 0x80⟩, ⟨true, 0x0C, 0x80⟩]) ∧
    ((frames (run initState (cycles [⟨true, 0x0C, 0x80⟩, ⟨true, 0x0C, 0x80⟩])).2).length
      = observedTicks false (cycles [⟨true, 0x0C, 0x80⟩, ⟨true, 0x0C, 0x80⟩]) ∧
    (run initState (cycles [⟨true, 0x0C, 0x80⟩, ⟨true, 0x0C, 0x80⟩])).1.seconds
      = (observedTicks false (cycles [⟨true, 0x0C, 0x80⟩, ⟨true, 0x0C, 0x80⟩]) : Int) ∧
    (∃ t sp h : Int,
      (frames (run initState (cycles [⟨true, 0x0C, 0x80⟩, ⟨true, 0x0C, 0x80⟩])).2)[1]?
        = some (sendDataToServer t sp h (((1 : Nat) : Int) + 1))) ∧
    (mainThreadLoop ⟨false, 0, 0⟩ (timerCallback initState)).1.seconds = initState.seconds + 1 ∧
    (frames (mainThreadLoop ⟨false, 0, 0⟩ (timerCallback initState)).2).length = 1 ∧
    (run initState (cycles [⟨true, 0x0C, 0x80⟩, ⟨true, 0x0C, 0x80⟩])).1.seconds
      ≤ (run initState (cycles [⟨true, 0x0C, 0x80⟩, ⟨true, 0x0C, 0x80⟩]
          ++ [Event.timerFire])).1.seconds) :=
  ⟨by decide,
    one_frame_per_tick (cycles [⟨true, 0x0C, 0x80⟩, ⟨true, 0x0C, 0x80⟩]) [Event.timerFire]
      initState ⟨false, 0, 0⟩ 1 (by decide)⟩

theorem run_quiet (mid : List Event) : ∀ s : State,
    observedTicks (decide (s.TimerFlag ≠ 0)) mid = 0 →
    (run s mid).1.temperature = s.temperature ∧ (run s mid).1.seconds = s.seconds ∧
    (run s mid).1.heat = s.heat ∧ (run s mid).2 = [] := by
  induction mid with
  | nil => intro s _; simp [run]
  | cons ev mid ih =>
    intro s h
    rw [run_cons]
    cases ev with
    | timerFire =>
      have h1 := ih (timerCallback s) (by simpa [observedTicks, timerCallback] using h)
      simpa [step, timerCallback] using h1
    | loop bus =>
      by_cases hf : s.TimerFlag ≠ 0
      · have hdt : decide (s.TimerFlag ≠ 0) = true := decide_eq_true hf
        rw [hdt] at h
        simp only [observedTicks, if_true] at h
        omega
      · have hdf : decide (s.TimerFlag ≠ 0) = false := decide_eq_false hf
        have hz : s.TimerFlag = 0 := by
          by_contra hc
          exact hf hc
        rw [hdf] at h
        simp only [observedTicks] at h
        have h1 := ih s (by rw [hdf]; simpa using h)
        simp only [step, loop_idle bus s hz, List.nil_append]
        exact h1
    | increasePress =>
      have h1 := ih (gpioButtonFxn0 s) (by simpa [observedTicks, gpioButtonFxn0] using h)
      simpa [step, gpioButtonFxn0] using h1
    | decreasePress =>
      have h1 := ih (gpioButtonFxn1 s) (by simpa [observedTicks, gpioButtonFxn1] using h)
      simpa [step, gpioButtonFxn1] using h1

theorem loop_odd (x : I2CResult) (u : State) (hset : u.TimerFlag ≠ 0)
    (hodd : ¬ (u.seconds + 1) % 2 = 0) :
    mainThreadLoop x u =
      ({ TimerFlag := 0, setPoint := u.setPoint, seconds := u.seconds + 1,
         temperature := u.temperature,
         heat := if u.temperature < u.setPoint then 1 else 0 },
       [Action.GPIO_write (if u.temperature < u.setPoint then LedLevel.CONFIG_GPIO_LED_ON
                           else LedLevel.CONFIG_GPIO_LED_OFF),
        Action.UART2_write (sendDataToServer u.temperature u.setPoint
          (if u.temperature < u.setPoint then 1 else 0) (u.seconds + 1))]) := by
  rw [mainThreadLoop_eq]
  simp only [tmod_two_eq_zero_iff, if_neg hodd, if_pos hset]
  by_cases hc : u.temperature < u.setPoint
  · simp [hc]
  · simp [hc]

/-- C13: take a cycle at an even elapsed count (new count `s.seconds + 1`
even), then any events in which no further tick is observed, then the next
cycle, at the following odd count.  The odd cycle issues no bus transfer, its
result does not depend on what the bus would deliver, no frame lies between
the two, and its frame carries the same temperature as the frame of the even
cycle. -/
theorem hold_phase (s : State) (b b1 b2 : I2CResult) (mid : List Event)
    (hflag : s.TimerFlag ≠ 0) (heven : (s.seconds + 1) % 2 = 0)
    (hmid : observedTicks false mid = 0)
    (hset : (run (mainThreadLoop b s).1 mid).1.TimerFlag ≠ 0) :
    frames (mainThreadLoop b s).2
      = [sendDataToServer (mainThreadLoop b s).1.temperature s.setPoint
          (mainThreadLoop b s).1.heat (s.seconds + 1)] ∧
    (run (mainThreadLoop b s).1 mid).2 = [] ∧
    frames (mainThreadLoop b1 (run (mainThreadLoop b s).1 mid).1).2
      = [sendDataToServer (mainThreadLoop b s).1.temperature
          (run (mainThreadLoop b s).1 mid).1.setPoint
          (mainThreadLoop b1 (run (mainThreadLoop b s).1 mid).1).1.heat (s.seconds + 2)] ∧
    countTransfers (mainThreadLoop b1 (run (mainThreadLoop b s).1 mid).1).2 = 0 ∧
    mainThreadLoop b1 (run (mainThreadLoop b s).1 mid).1
      = mainThreadLoop b2 (run (mainThreadLoop b s).1 mid).1 := by
  have hs := loop_seconds b s
  rw [if_pos hflag] at hs
  have hd0 : decide ((mainThreadLoop b s).1.TimerFlag ≠ 0) = false := by
    rw [hs.2]
    decide
  have hq := run_quiet mid (mainThreadLoop b s).1 (by rw [hd0]; exact hmid)
  have hsec : (run (mainThreadLoop b s).1 mid).1.seconds = s.seconds + 1 := by
    rw [hq.2.1, hs.1]
  have hodd : ¬ ((run (mainThreadLoop b s).1 mid).1.seconds + 1) % 2 = 0 := by
    rw [hsec]
    omega
  have hind : ∀ x : I2CResult, mainThreadLoop x (run (mainThreadLoop b s).1 mid).1
      = mainThreadLoop b1 (run (mainThreadLoop b s).1 mid).1 := by
    intro x
    rw [loop_odd x _ hset hodd, loop_odd b1 _ hset hodd]
  have hT : (mainThreadLoop b1 (run (mainThreadLoop b s).1 mid).1).1.temperature
      = (mainThreadLoop b s).1.temperature := by
    rw [loop_odd b1 _ hset hodd]
    exact hq.1
  refine ⟨loop_frames b s hflag, hq.2.2.2, ?_, ?_, (hind b2).symm⟩
  · rw [loop_frames b1 _ hset, hT, hsec]
    congr 2
    ring
  · rw [loop_transfers, if_neg (fun hc => hodd hc.2)]

theorem hold_phase_witness :
    ((⟨1, 25, 1, 0, 1⟩ : State).TimerFlag ≠ 0 ∧
      ((⟨1, 25, 1, 0, 1⟩ : State).seconds + 1) % 2 = 0 ∧
      observedTicks false [Event.increasePress, Event.timerFire] = 0) ∧
    (frames (mainThreadLoop ⟨false, 0, 0⟩ ⟨1, 25, 1, 0, 1⟩).2
      = [sendDataToServer (mainThreadLoop ⟨false, 0, 0⟩ ⟨1, 25, 1, 0, 1⟩).1.temperature
          (⟨1, 25, 1, 0, 1⟩ : State).setPoint
          (mainThreadLoop ⟨false, 0, 0⟩ ⟨1, 25, 1, 0, 1⟩).1.heat
          ((⟨1, 25, 1, 0, 1⟩ : State).seconds + 1)] ∧
    (run (mainThreadLoop ⟨false, 0, 0⟩ ⟨1, 25, 1, 0, 1⟩).1
        [Event.increasePress, Event.timerFire]).2 = [] ∧
    frames (mainThreadLoop ⟨true, 0x0C, 0x80⟩
        (run (mainThreadLoop ⟨false, 0, 0⟩ ⟨1, 25, 1, 0, 1⟩).1
          [Event.increasePress, Event.timerFire]).1).2
      = [sendDataToServer (mainThreadLoop ⟨false, 0, 0⟩ ⟨1, 25, 1, 0, 1⟩).1.temperature
          (run (mainThreadLoop ⟨false, 0, 0⟩ ⟨1, 25, 1, 0, 1⟩).1
            [Event.increasePress, Event.timerFire]).1.setPoint
          (mainThreadLoop ⟨true, 0x0C, 0x80⟩
            (run (mainThreadLoop ⟨false, 0, 0⟩ ⟨1, 25, 1, 0, 1⟩).1
              [Event.increasePress, Event.timerFire]).1).1.heat
          ((⟨1, 25, 1, 0, 1⟩ : State).seconds + 2)] ∧
    countTransfers (mainThreadLoop ⟨true, 0x0C, 0x80⟩
        (run (mainThreadLoop ⟨false, 0, 0⟩ ⟨1, 25, 1, 0, 1⟩).1
          [Event.increasePress, Event.timerFire]).1).2 = 0 ∧
    mainThreadLoop ⟨true, 0x0C, 0x80⟩
        (run (mainThreadLoop ⟨false, 0, 0⟩ ⟨1, 25, 1, 0, 1⟩).1
          [Event.increasePress, Event.timerFire]).1
      = mainThreadLoop ⟨true, 0xFF, 0xFF⟩
        (run (mainThreadLoop ⟨false, 0, 0⟩ ⟨1, 25, 1, 0, 1⟩).1
          [Event.increasePress, Event.timerFire]).1) :=
  ⟨⟨by decide, by decide, by decide⟩,
    hold_phase ⟨1, 25, 1, 0, 1⟩ ⟨false, 0, 0⟩ ⟨true, 0x0C, 0x80⟩ ⟨true, 0xFF, 0xFF⟩
      [Event.increasePress, Event.timerFire] (by decide) (by decide) (by decide)
      (by simp [run, step, timerCallback, gpioButtonFxn0])⟩

/-! ## Initialisation failures -/

/-- C14: if `UART2_open`, `I2C_open` or `Timer_open` returns NULL, or
`Timer_start` returns `Timer_STATUS_ERROR`, `mainThread` never reaches the
loop: no event is processed, no transfer is issued and no frame is written
(the trace is empty or just the LED-off write of `initGPIO`).  For any driver
results the loop is reached exactly when all four succeed, and then it runs
from the initial state. -/
theorem halt_on_init_failure (d e : DriverResults) (evs : List Event)
    (h : d.UART2_open = false ∨ d.I2C_open = false ∨ d.Timer_open = false ∨
      d.Timer_start = false) :
    (mainThread d evs).1 = none ∧
    countTransfers (mainThread d evs).2 = 0 ∧
    frames (mainThread d evs).2 = [] ∧
    ((mainThread d evs).2 = [] ∨ (mainThread d evs).2 = initGPIO) ∧
    mainThread d evs = mainThread d [] ∧
    ((mainThread e evs).1 ≠ none ↔
      (e.UART2_open = true ∧ e.I2C_open = true ∧ e.Timer_open = true ∧
        e.Timer_start = true)) ∧
    mainThread ⟨true, true, true, true⟩ evs
      = (some (run initState evs).1, initGPIO ++ (run initState evs).2) := by
  obtain ⟨d1, d2, d3, d4⟩ := d
  obtain ⟨e1, e2, e3, e4⟩ := e
  refine ⟨?_, ?_, ?_, ?_, ?_, ?_, ?_⟩
  · cases d1 <;> cases d2 <;> cases d3 <;> cases d4 <;>
      simp [mainThread, initUART2, initI2C, initTimer] at h ⊢
  · cases d1 <;> cases d2 <;> cases d3 <;> cases d4 <;>
      simp [mainThread, initUART2, initI2C, initTimer, initGPIO, countTransfers] at h ⊢
  · cases d1 <;> cases d2 <;> cases d3 <;> cases d4 <;>
      simp [mainThread, initUART2, initI2C, initTimer, initGPIO, frames] at h ⊢
  · cases d1 <;> cases d2 <;> cases d3 <;> cases d4 <;>
      simp [mainThread, initUART2, initI2C, initTimer, initGPIO] at h ⊢
  · cases d1 <;> cases d2 <;> cases d3 <;> cases d4 <;>
      simp [mainThread, initUART2, initI2C, initTimer, initGPIO] at h ⊢
  · cases e1 <;> cases e2 <;> cases e3 <;> cases e4 <;>
      simp [mainThread, initUART2, initI2C, initTimer]
  · simp [mainThread, initUART2, initI2C, initTimer]

theorem halt_on_init_failure_witness :
    ((⟨true, true, true, false⟩ : DriverResults).UART2_open = false ∨
      (⟨true, true, true, false⟩ : DriverResults).I2C_open = false ∨
      (⟨true, true, true, false⟩ : DriverResults).Timer_open = false ∨
      (⟨true, true, true, false⟩ : DriverResults).Timer_start = false) ∧
    ((mainThread ⟨true, true, true, false⟩ [Event.timerFire, Event.loop ⟨false, 0, 0⟩]).1 = none ∧
    countTransfers
      (mainThread ⟨true, true, true, false⟩ [Event.timerFire, Event.loop ⟨false, 0, 0⟩]).2 = 0 ∧
    frames (mainThread ⟨true, true, true, false⟩ [Event.timerFire, Event.loop ⟨false, 0, 0⟩]).2
      = [] ∧
    ((mainThread ⟨true, true, true, false⟩ [Event.timerFire, Event.loop ⟨false, 0, 0⟩]).2 = [] ∨
      (mainThread ⟨true, true, true, false⟩ [Event.timerFire, Event.loop ⟨false, 0, 0⟩]).2
        = initGPIO) ∧
    mainThread ⟨true, true, true, false⟩ [Event.timerFire, Event.loop ⟨false, 0, 0⟩]
      = mainThread ⟨true, true, true, false⟩ [] ∧
    ((mainThread ⟨false, true, true, true⟩ [Event.timerFire, Event.loop ⟨false, 0, 0⟩]).1 ≠ none ↔
      ((⟨false, true, true, true⟩ : DriverResults).UART2_open = true ∧
        (⟨false, true, true, true⟩ : DriverResults).I2C_open = true ∧
        (⟨false, true, true, true⟩ : DriverResults).Timer_open = true ∧
        (⟨false, true, true, true⟩ : DriverResults).Timer_start = true)) ∧
    mainThread ⟨true, true, true, true⟩ [Event.timerFire, Event.loop ⟨false, 0, 0⟩]
      = (some (run initState [Event.timerFire, Event.loop ⟨false, 0, 0⟩]).1,
         initGPIO ++ (run initState [Event.timerFire, Event.loop ⟨false, 0, 0⟩]).2)) :=
  ⟨by decide,
    halt_on_init_failure ⟨true, true, true, false⟩ ⟨false, true, true, true⟩
      [Event.timerFire, Event.loop ⟨false, 0, 0⟩] (by decide)⟩

/-! ## Decoding a frame -/

theorem digitChar_val (m : Nat) (h : m < 10) : (Nat.digitChar m).toNat - 48 = m := by
  interval_cases m <;> rfl

theorem digitChar_ne_comma (m : Nat) (h : m < 10) : Nat.digitChar m ≠ ',' := by
  interval_cases m <;> decide

theorem digitChar_ne_minus (m : Nat) (h : m < 10) : Nat.digitChar m ≠ '-' := by
  interval_cases m <;> decide

theorem decVal_snoc (l : List Char) (c : Char) :
    decVal (l ++ [c]) = 10 * decVal l + (c.toNat - 48) := by
  simp [decVal, List.foldl_append]

theorem decVal_toDigits (n : Nat) : decVal (Nat.toDigits 10 n) = n := by
  induction n using Nat.strong_induction_on with
  | _ n ih =>
    by_cases h : n < 10
    · rw [toDigits_lt10 n h]
      have := decVal_snoc [] (Nat.digitChar n)
      simp only [List.nil_append] at this
      rw [this, digitChar_val n h]
      simp [decVal]
    · rw [toDigits_step n (by omega), decVal_snoc, ih (n / 10) (by omega),
        digitChar_val _ (Nat.mod_lt _ (by decide))]
      omega

theorem decVal_zeros (k : Nat) (l : List Char) :
    decVal (List.replicate k '0' ++ l) = decVal l := by
  induction k with
  | zero => rfl
  | succ k ih =>
    rw [List.replicate_succ, List.cons_append]
    unfold decVal at ih ⊢
    rw [List.foldl_cons]
    exact ih

theorem toDigitsCore_digits (f : Nat) : ∀ (n : Nat) (acc : List Char),
    (∀ c ∈ acc, ∃ m, m < 10 ∧ c = Nat.digitChar m) →
    ∀ c ∈ Nat.toDigitsCore 10 f n acc, ∃ m, m < 10 ∧ c = Nat.digitChar m := by
  induction f with
  | zero => intro n acc hacc; simpa [Nat.toDigitsCore] using hacc
  | succ f ih =>
    intro n acc hacc
    have hd : ∀ c ∈ Nat.digitChar (n % 10) :: acc, ∃ m, m < 10 ∧ c = Nat.digitChar m := by
      intro c hc
      rcases List.mem_cons.mp hc with rfl | hc
      · exact ⟨n % 10, Nat.mod_lt _ (by decide), rfl⟩
      · exact hacc c hc
    rw [toDigitsCore_succ]
    by_cases h : n / 10 = 0
    · rw [if_pos h]
      exact hd
    · rw [if_neg h]
      exact ih _ _ hd

theorem toDigits_digits (n : Nat) :
    ∀ c ∈ Nat.toDigits 10 n, ∃ m, m < 10 ∧ c = Nat.digitChar m :=
  toDigitsCore_digits _ _ [] (by simp)

theorem toDigits_ne_nil (n : Nat) : Nat.toDigits 10 n ≠ [] := by
  by_cases h : n < 10
  · rw [toDigits_lt10 n h]
    simp
  · rw [toDigits_step n (by omega)]
    simp

/-- Characters of a non-negative field: digits only. -/
theorem padded_digits (k n : Nat) :
    ∀ c ∈ List.replicate k '0' ++ Nat.toDigits 10 n, ∃ m, m < 10 ∧ c = Nat.digitChar m := by
  intro c hc
  rcases List.mem_append.mp hc with hc | hc
  · exact ⟨0, by decide, List.eq_of_mem_replicate hc⟩
  · exact toDigits_digits n c hc

theorem printf_d_ne_comma (w : Nat) (v : Int) : ∀ c ∈ printf_d w v, c ≠ ',' := by
  intro c hc
  unfold printf_d at hc
  simp only at hc
  split_ifs at hc
  · rcases List.mem_cons.mp hc with rfl | hc
    · decide
    · obtain ⟨m, hm, rfl⟩ := padded_digits _ _ c hc
      exact digitChar_ne_comma m hm
  · obtain ⟨m, hm, rfl⟩ := padded_digits _ _ c hc
    exact digitChar_ne_comma m hm

/-- The field printed for `v` reads back as `v`. -/
theorem decInt_printf_d (w : Nat) (v : Int) : decInt (printf_d w v) = v := by
  unfold printf_d
  simp only
  by_cases hv : v < 0
  · rw [if_pos hv]
    simp only [decInt, if_true]
    rw [decVal_zeros, decVal_toDigits]
    omega
  · rw [if_neg hv]
    have hne : List.replicate (w - (Nat.toDigits 10 v.natAbs).length) '0'
        ++ Nat.toDigits 10 v.natAbs ≠ [] := by
      intro hnil
      exact toDigits_ne_nil _ (List.append_eq_nil.mp hnil).2
    have hval := decVal_zeros (w - (Nat.toDigits 10 v.natAbs).length) (Nat.toDigits 10 v.natAbs)
    have hdig := padded_digits (w - (Nat.toDigits 10 v.natAbs).length) v.natAbs
    generalize List.replicate (w - (Nat.toDigits 10 v.natAbs).length) '0'
        ++ Nat.toDigits 10 v.natAbs = l at hne hval hdig
    cases l with
    | nil => exact absurd rfl hne
    | cons c rest =>
      obtain ⟨m, hm, hc⟩ := hdig c (List.mem_cons_self _ _)
      have hcm : c ≠ '-' := by
        rw [hc]
        exact digitChar_ne_minus m hm
      simp only [decInt, if_neg hcm]
      rw [hval, decVal_toDigits]
      omega

theorem printf_d_injective (w : Nat) (v v' : Int) (h : printf_d w v = printf_d w v') :
    v = v' := by
  rw [← decInt_printf_d w v, ← decInt_printf_d w v', h]

/-- A text is split in one way at its first comma. -/
theorem split_at_comma (a : List Char) : ∀ (a' r r' : List Char),
    (∀ c ∈ a, c ≠ ',') → (∀ c ∈ a', c ≠ ',') →
    a ++ ',' :: r = a' ++ ',' :: r' → a = a' ∧ r = r' := by
  induction a with
  | nil =>
    intro a' r r' _ ha' h
    cases a' with
    | nil => simpa using h
    | cons x a' =>
      simp only [List.nil_append, List.cons_append, List.cons.injEq] at h
      exact absurd h.1.symm (ha' x (List.mem_cons_self _ _))
  | cons x a ih =>
    intro a' r r' ha ha' h
    cases a' with
    | nil =>
      simp only [List.nil_append, List.cons_append, List.cons.injEq] at h
      exact absurd h.1 (ha x (List.mem_cons_self _ _))
    | cons y a' =>
      simp only [List.cons_append, List.cons.injEq] at h
      obtain ⟨h1, h2⟩ := ih a' r r' (fun c hc => ha c (List.mem_cons_of_mem _ hc))
        (fun c hc => ha' c (List.mem_cons_of_mem _ hc)) h.2
      exact ⟨by rw [h.1, h1], h2⟩

theorem formatFrame_injective (t sp h e t' sp' h' e' : Int)
    (heq : formatFrame t sp h e = formatFrame t' sp' h' e') :
    t = t' ∧ sp = sp' ∧ h = h' ∧ e = e' := by
  unfold formatFrame at heq
  simp only [List.cons.injEq, true_and] at heq
  obtain ⟨h1, r1⟩ := split_at_comma _ _ _ _ (printf_d_ne_comma 2 t) (printf_d_ne_comma 2 t') heq
  obtain ⟨h2, r2⟩ := split_at_comma _ _ _ _ (printf_d_ne_comma 2 sp) (printf_d_ne_comma 2 sp') r1
  obtain ⟨h3, r3⟩ := split_at_comma _ _ _ _ (printf_d_ne_comma 0 h) (printf_d_ne_comma 0 h') r2
  have h4 := List.append_cancel_right r3
  exact ⟨printf_d_injective 2 _ _ h1, printf_d_injective 2 _ _ h2,
    printf_d_injective 0 _ _ h3, printf_d_injective 4 _ _ h4⟩

theorem formatFrame_length_le (t sp h e : Int)
    (ht : isInt32 t) (hs : isInt32 sp) (hh : isInt32 h) (he : isInt32 e) :
    (formatFrame t sp h e).length ≤ 49 := by
  have h1 := printf_d_length_le 2 t (by decide) ht.1 ht.2
  have h2 := printf_d_length_le 2 sp (by decide) hs.1 hs.2
  have h3 := printf_d_length_le 0 h (by decide) hh.1 hh.2
  have h4 := printf_d_length_le 4 e (by decide) he.1 he.2
  unfold formatFrame
  simp only [List.length_cons, List.length_append, List.length_nil]
  omega

/-- C18: over the values of the C type `int`, the bytes `sendDataToServer`
writes determine its four arguments: two calls that write the same bytes were
given the same temperature, setPoint, heat and seconds; each field of the
format reads back as the value printed. -/
theorem frame_decodable (t sp h e t' sp' h' e' : Int)
    (ht : isInt32 t) (hs : isInt32 sp) (hh : isInt32 h) (he : isInt32 e)
    (ht' : isInt32 t') (hs' : isInt32 sp') (hh' : isInt32 h') (he' : isInt32 e')
    (heq : sendDataToServer t sp h e = sendDataToServer t' sp' h' e') :
    (t = t' ∧ sp = sp' ∧ h = h' ∧ e = e') ∧
    (decInt (printf_d 2 t) = t ∧ decInt (printf_d 2 sp) = sp ∧
      decInt (printf_d 0 h) = h ∧ decInt (printf_d 4 e) = e) := by
  rw [sendDataToServer_fits t sp h e (by have := formatFrame_length_le t sp h e ht hs hh he; omega),
    sendDataToServer_fits t' sp' h' e'
      (by have := formatFrame_length_le t' sp' h' e' ht' hs' hh' he'; omega)] at heq
  exact ⟨formatFrame_injective _ _ _ _ _ _ _ _ heq,
    decInt_printf_d _ _, decInt_printf_d _ _, decInt_printf_d _ _, decInt_printf_d _ _⟩

theorem frame_decodable_witness :
    (isInt32 (-7) ∧ isInt32 25 ∧ isInt32 1 ∧ isInt32 12345 ∧
      sendDataToServer (-7) 25 1 12345 = sendDataToServer (-7) 25 1 12345) ∧
    (((-7 : Int) = -7 ∧ (25 : Int) = 25 ∧ (1 : Int) = 1 ∧ (12345 : Int) = 12345) ∧
    (decInt (printf_d 2 (-7)) = -7 ∧ decInt (printf_d 2 25) = 25 ∧
      decInt (printf_d 0 1) = 1 ∧ decInt (printf_d 4 12345) = 12345)) :=
  ⟨⟨by decide, by decide, by decide, by decide, rfl⟩,
    frame_decodable (-7) 25 1 12345 (-7) 25 1 12345
      (by decide) (by decide) (by decide) (by decide)
      (by decide) (by decide) (by decide) (by decide) rfl⟩

end Thermostat
